import Mathlib

/-!
Verification development for the study-tracker repository.

This file gives a shallow embedding, in Lean 4, of the core of the
repository: the session state machine (`src/session_manager.py`) and the
parts of the activity sampler (`src/activity_monitor.py`) that the
specification speaks about, and proves or refutes the specification's
claims about them.

Modelling conventions:
* Python floats carrying wall-clock timestamps and durations are modelled
  as rationals (`ℚ`); the arithmetic the claims are about is exact on the
  concrete inputs used here.
* Each Python method may call `time.time()` several times inside one call;
  within a single modelled operation all those reads are identified with a
  single `now` parameter (the clock is not advanced mid-operation).
* Calls into the persistence collaborator (`db_manager.create_session`,
  `update_session`, `log_activity_event`) either succeed or raise; their
  outcomes are passed in as explicit parameters (`Except`/`Bool`).  A
  Python exception propagating out of a method leaves all mutations made
  so far in place, so every modelled operation returns the post-state
  together with an `Except` result.
* Python truthiness tests on optional floats (`if not self.idle_start_time:`)
  are modelled by `truthyTime`, which is false for `none` and for `some 0`,
  matching the falsiness of both `None` and `0.0`.
* `int(x)` (truncation toward zero) is modelled by `pyInt`, and Python's
  `round(x, 1)` by `round1`; `round1` rounds half away from the even-tie
  behaviour of Python only at exact .05 ties, which no claim touches.
-/

namespace StudyTracker

/-! ## Activity monitor (`src/activity_monitor.py`) -/

/-- ASCII lowercasing of one character, as Python's `str.lower` acts on the
key names the monitor sanitizes. -/
def py_lower (c : Char) : Char :=
  if 'A' ≤ c ∧ c ≤ 'Z' then Char.ofNat (c.toNat + 32) else c

/-- The sensitive substrings checked by `ActivityMonitor._sanitize_key`. -/
def sensitive_patterns : List (List Char) :=
  ["password".toList, "passwd".toList, "pwd".toList, "secret".toList, "key".toList]

/-- `ActivityMonitor._sanitize_key` (activity_monitor.py lines 702-713):
if any sensitive pattern occurs in the lowercased key, return
`"[REDACTED]"`; otherwise truncate the key to 20 characters.  Keys are
modelled as `List Char`. -/
def sanitize_key (key : List Char) : List Char :=
  let key_lower := key.map py_lower
  if sensitive_patterns.any (fun p => decide (p <:+: key_lower)) then
    "[REDACTED]".toList
  else
    key.take 20

/-- `ActivityMonitor._calculate_keyboard_intensity` (lines 539-563).
The keypress buffer is the chronological list of recorded keypress
timestamps (a `deque(maxlen=10)` in the source). -/
def calculate_keyboard_intensity (keypress_times : List ℚ) (now : ℚ) : ℚ :=
  if keypress_times.length < 2 then 1/10
  else
    let recent_keypresses := keypress_times.filter (fun t => now - t ≤ 5)
    if recent_keypresses = [] then 1/10
    else
      let time_span := recent_keypresses.getLastD 0 - recent_keypresses.headD 0
      if time_span ≤ 0 then 1/10
      else
        let keys_per_second := (recent_keypresses.length : ℚ) / time_span
        max (min (keys_per_second / 10) 1) (1/10)

/-- The mutable state of `ActivityMonitor` that `start_monitoring` touches.
The two background loops (`_idle_detection_loop`, `_intensity_calculation_loop`)
are represented by flags recording whether their threads were launched;
`threading.Thread.start` is assumed not to raise (the `except` arm of
`start_monitoring` is therefore not modelled), and database logging has no
effect on this state. -/
structure AMState where
  permissions_ok : Bool
  is_monitoring : Bool
  is_paused : Bool
  fallback_mode : Bool
  current_session_id : Option Nat
  last_activity_time : ℚ
  idle_state : Bool
  keypress_times : List ℚ
  mouse_positions : List (ℚ × ℚ × ℚ)
  shutdown_event : Bool
  monitor_thread_running : Bool
  intensity_thread_running : Bool
  idle_threshold : ℚ
deriving DecidableEq, Repr

/-- `ActivityMonitor.start_monitoring` (lines 147-215).  `listenersOk` is
the outcome of `_start_input_listeners()`. -/
def start_monitoring (m : AMState) (session_id : Nat) (now : ℚ)
    (listenersOk : Bool) : AMState × Bool :=
  if ¬ m.permissions_ok then (m, false)
  else if m.is_monitoring then (m, true)
  else
    ({ m with
        current_session_id := some session_id
        last_activity_time := now
        idle_state := false
        is_monitoring := true
        is_paused := false
        keypress_times := []
        mouse_positions := []
        shutdown_event := false
        fallback_mode := ¬ listenersOk
        monitor_thread_running := true
        intensity_thread_running := true }, true)

/-! ## Session manager (`src/session_manager.py`) -/

/-- The `SessionState` enum (session_manager.py lines 14-18). -/
inductive SessionState where
  | idle
  | active
  | paused
  | completed
deriving DecidableEq, Repr

/-- The `.value` string of each enum member. -/
def SessionState.value : SessionState → String
  | .idle => "idle"
  | .active => "active"
  | .paused => "paused"
  | .completed => "completed"

/-- The in-memory `current_session` dict built by `start_session`
(lines 64-71); only the fields the core reads back are modelled
(`created_at` and `metadata` are write-only display data). -/
structure Session where
  id : Nat
  topic : String
  description : String
  start_timestamp : ℚ
deriving DecidableEq, Repr

/-- One `state_history` entry as recorded by `_transition_state`
(lines 326-334). -/
structure StateTransition where
  timestamp : ℚ
  from_state : SessionState
  to_state : SessionState
  reason : String
  session_time : ℚ
deriving DecidableEq, Repr

/-- The mutable fields of `SessionManager` (lines 24-42).  `observer_log`
is a ghost field: the stream of `state_changed` notifications sent to
observers by `_transition_state`; unlike `state_history` it is never
cleared, so it records every transition ever taken. -/
structure SMState where
  current_session : Option Session
  session_state : SessionState
  session_start_time : Option ℚ
  last_activity_time : Option ℚ
  idle_start_time : Option ℚ
  total_active_time : ℚ
  total_idle_time : ℚ
  state_history : List StateTransition
  idle_threshold : ℚ
  observer_log : List StateTransition
deriving DecidableEq, Repr

/-- The freshly constructed manager (`__init__`, lines 24-42), with the
configured idle threshold. -/
def initState (thr : ℚ) : SMState where
  current_session := none
  session_state := .idle
  session_start_time := none
  last_activity_time := none
  idle_start_time := none
  total_active_time := 0
  total_idle_time := 0
  state_history := []
  idle_threshold := thr
  observer_log := []

/-- Python truthiness of an optional float: `None` and `0.0` are falsy. -/
def truthyTime : Option ℚ → Bool
  | none => false
  | some t => t != 0

/-- Python `int(x)`: truncation toward zero. -/
def pyInt (q : ℚ) : ℤ :=
  if 0 ≤ q then ⌊q⌋ else ⌈q⌉

/-- Python `round(x, 1)` (one decimal place).  Modelled with `round`
(half away from zero at upward ties), which agrees with Python's
half-to-even rounding except at exact .05 ties. -/
def round1 (q : ℚ) : ℚ :=
  (round (q * 10) : ℤ) / 10

/-- `SessionManager._cleanup_session` (lines 444-453). -/
def cleanup_session (s : SMState) : SMState :=
  { s with
      current_session := none
      session_state := .idle
      session_start_time := none
      last_activity_time := none
      idle_start_time := none
      total_active_time := 0
      total_idle_time := 0
      state_history := [] }

/-- `SessionManager._transition_state` (lines 319-341): set the new state
and append the change record to `state_history` (and to the ghost
notification log). -/
def transition_state (s : SMState) (now : ℚ) (new_state : SessionState)
    (reason : String) : SMState × StateTransition :=
  let change : StateTransition :=
    { timestamp := now
      from_state := s.session_state
      to_state := new_state
      reason := reason
      session_time :=
        if truthyTime s.session_start_time then
          now - s.session_start_time.getD 0
        else 0 }
  ({ s with
      session_state := new_state
      state_history := s.state_history ++ [change]
      observer_log := s.observer_log ++ [change] }, change)

/-- `SessionManager._update_time_tracking` (lines 343-373).  In every
reachable state with a truthy `session_start_time` the source's
`last_activity_time` is a float, so the `getD 0` defaults are never the
value actually read. -/
def update_time_tracking (s : SMState) (now : ℚ) : SMState :=
  if truthyTime s.session_start_time then
    if s.session_state = .active then
      let time_since_activity := now - s.last_activity_time.getD 0
      if s.idle_threshold ≤ time_since_activity then
        if s.idle_start_time = none then
          { s with idle_start_time := some (s.last_activity_time.getD 0 + s.idle_threshold) }
        else s
      else
        let s1 :=
          if truthyTime s.idle_start_time then
            { s with
                total_idle_time :=
                  s.total_idle_time + (now - s.idle_start_time.getD 0)
                idle_start_time := none }
          else s
        { s1 with total_active_time :=
            s1.total_active_time + min time_since_activity 1 }
    else if s.session_state = .paused then
      if truthyTime s.idle_start_time then
        { s with total_idle_time :=
            s.total_idle_time + (now - s.idle_start_time.getD 0) }
      else s
    else s
  else s

/-- The dict returned by `_calculate_final_productivity` (lines 375-416). -/
structure FinalStats where
  productivity : ℚ
  level : String
  efficiency : ℚ
  focus_ratio : ℚ
deriving DecidableEq, Repr

/-- `SessionManager._calculate_final_productivity` (lines 375-416). -/
def calculate_final_productivity (s : SMState) (now : ℚ) : FinalStats :=
  let total_time := s.total_active_time + s.total_idle_time
  if total_time = 0 then
    { productivity := 0, level := "none", efficiency := 0, focus_ratio := 0 }
  else
    let efficiency := s.total_active_time / total_time * 100
    let session_time := now - s.session_start_time.getD 0
    let focus_ratio :=
      if 0 < session_time then s.total_active_time / session_time * 100 else 0
    let productivity := efficiency
    let level :=
      if 90 ≤ productivity then "excellent"
      else if 75 ≤ productivity then "good"
      else if 60 ≤ productivity then "moderate"
      else if 40 ≤ productivity then "poor"
      else "very_poor"
    { productivity := round1 productivity
      level := level
      efficiency := round1 efficiency
      focus_ratio := round1 focus_ratio }

/-- The stats dict returned by `_get_session_stats` (lines 418-434). -/
structure SessionStats where
  total_seconds : ℤ
  active_seconds : ℤ
  idle_seconds : ℤ
  productivity : ℚ
deriving DecidableEq, Repr

/-- `SessionManager._get_session_stats` (lines 418-434); `none` models the
empty dict returned when no start time is set.  Note it reconciles time
tracking, so it returns the post-state as well. -/
def get_session_stats (s : SMState) (now : ℚ) :
    SMState × Option SessionStats :=
  if truthyTime s.session_start_time then
    let s1 := update_time_tracking s now
    let total_time := now - s1.session_start_time.getD 0
    (s1, some
      { total_seconds := pyInt total_time
        active_seconds := pyInt s1.total_active_time
        idle_seconds := pyInt s1.total_idle_time
        productivity :=
          if 0 < total_time then
            round1 (s1.total_active_time / total_time * 100)
          else 0 })
  else (s, none)

/-- Errors raised by the session manager: the `ValueError` guards
(the spec's `InvalidStateError`) and exceptions propagated from the
persistence collaborator. -/
inductive SMError where
  | invalidState (msg : String)
  | persistence (msg : String)
deriving DecidableEq, Repr

/-- `SessionManager.start_session` (lines 44-101).  `createRes` is the
outcome of `db_manager.create_session` and `logOk` that of
`db_manager.log_activity_event`; a failure of either reaches the
`except` arm, which cleans up and re-raises. -/
def start_session (s : SMState) (topic description : String) (now : ℚ)
    (createRes : Except String Nat) (logOk : Bool) :
    SMState × Except SMError Nat :=
  if s.session_state ≠ .idle then
    (s, .error (.invalidState
      ("Cannot start session - currently in " ++ s.session_state.value ++ " state")))
  else
    match createRes with
    | .error e => (cleanup_session s, .error (.persistence e))
    | .ok session_id =>
      let s1 := { s with
        current_session := some
          { id := session_id, topic := topic, description := description
            start_timestamp := now }
        session_start_time := some now
        last_activity_time := some now
        total_active_time := 0
        total_idle_time := 0
        idle_start_time := none }
      let s2 := (transition_state s1 now .active "Session started").1
      if logOk then (s2, .ok session_id)
      else (cleanup_session s2, .error (.persistence "log_activity_event failed"))

/-- `SessionManager.pause_session` (lines 103-124).  A failing
`log_activity_event` propagates out of the method with no rollback. -/
def pause_session (s : SMState) (reason : String) (now : ℚ) (logOk : Bool) :
    SMState × Except SMError (Option SessionStats) :=
  if s.session_state ≠ .active then
    (s, .error (.invalidState
      ("Cannot pause session - currently in " ++ s.session_state.value ++ " state")))
  else
    let s1 := update_time_tracking s now
    let s2 := { s1 with idle_start_time := some now }
    let s3 := (transition_state s2 now .paused reason).1
    if logOk then
      let (s4, stats) := get_session_stats s3 now
      (s4, .ok stats)
    else (s3, .error (.persistence "log_activity_event failed"))

/-- `SessionManager.resume_session` (lines 126-154).  A failing
`log_activity_event` propagates out of the method with no rollback. -/
def resume_session (s : SMState) (now : ℚ) (logOk : Bool) :
    SMState × Except SMError (Option SessionStats) :=
  if s.session_state ≠ .paused then
    (s, .error (.invalidState
      ("Cannot resume session - currently in " ++ s.session_state.value ++ " state")))
  else
    let s1 :=
      if truthyTime s.idle_start_time then
        { s with
            total_idle_time :=
              s.total_idle_time + (now - s.idle_start_time.getD 0)
            idle_start_time := none }
      else s
    let s2 := { s1 with last_activity_time := some now }
    let s3 := (transition_state s2 now .active "Session resumed").1
    if logOk then
      let (s4, stats) := get_session_stats s3 now
      (s4, .ok stats)
    else (s3, .error (.persistence "log_activity_event failed"))

/-- The summary dict returned by `stop_session` (lines 204-214). -/
structure SessionSummary where
  session_id : Nat
  topic : String
  total_minutes : ℤ
  active_minutes : ℤ
  idle_minutes : ℤ
  productivity : ℚ
  productivity_level : String
  success : Bool
deriving DecidableEq, Repr

/-- `SessionManager.stop_session` (lines 156-229).  `updateOk` is the
outcome of `db_manager.update_session` and `logOk` that of
`db_manager.log_activity_event`; a failure of either reaches the
`except` arm, which calls `_cleanup_session` and re-raises. -/
def stop_session (s : SMState) (success : Bool) (completion_notes : String)
    (now : ℚ) (updateOk logOk : Bool) :
    SMState × Except SMError SessionSummary :=
  if ¬ (s.session_state = .active ∨ s.session_state = .paused) then
    (s, .error (.invalidState
      ("Cannot stop session - currently in " ++ s.session_state.value ++ " state")))
  else
    let s1 := update_time_tracking s now
    let stats := calculate_final_productivity s1 now
    if ¬ updateOk then
      (cleanup_session s1, .error (.persistence "update_session failed"))
    else
      let s2 := (transition_state s1 now .completed
        ("Session completed: " ++ completion_notes)).1
      if ¬ logOk then
        (cleanup_session s2, .error (.persistence "log_activity_event failed"))
      else
        let summary : SessionSummary :=
          { session_id := (s2.current_session.map Session.id).getD 0
            topic := (s2.current_session.map Session.topic).getD ""
            total_minutes :=
              Int.fdiv (pyInt (s2.total_active_time + s2.total_idle_time)) 60
            active_minutes := Int.fdiv (pyInt s2.total_active_time) 60
            idle_minutes := Int.fdiv (pyInt s2.total_idle_time) 60
            productivity := stats.productivity
            productivity_level := stats.level
            success := success }
        (cleanup_session s2, .ok summary)

/-- The status dict returned by `get_current_status` (lines 231-270).
The nested `current_session` dict is modelled by the `Session` record. -/
structure StatusSnapshot where
  active : Bool
  state : String
  total_seconds : ℤ
  active_seconds : ℤ
  idle_seconds : ℤ
  productivity : ℚ
  current_session : Option Session
deriving DecidableEq, Repr

/-- The all-zero snapshot returned when no session is live
(lines 235-243). -/
def inactiveSnapshot : StatusSnapshot where
  active := false
  state := "idle"
  total_seconds := 0
  active_seconds := 0
  idle_seconds := 0
  productivity := 0
  current_session := none

/-- `SessionManager.get_current_status` (lines 231-270).  It reconciles
time tracking in memory, so it returns the post-state as well. -/
def get_current_status (s : SMState) (now : ℚ) : SMState × StatusSnapshot :=
  if ¬ s.current_session.isSome ∨ s.session_state = .idle then
    (s, inactiveSnapshot)
  else
    let s1 := update_time_tracking s now
    let total_elapsed := now - s1.session_start_time.getD 0
    let productivity :=
      if 0 < total_elapsed then s1.total_active_time / total_elapsed * 100
      else 0
    (s1,
      { active := true
        state := s1.session_state.value
        total_seconds := pyInt total_elapsed
        active_seconds := pyInt s1.total_active_time
        idle_seconds := pyInt s1.total_idle_time
        productivity := round1 productivity
        current_session := s1.current_session })

/-- `SessionManager.update_session_activity` (lines 272-291): refresh the
last-activity clock from the event's timestamp (or the current time);
the database logging has no effect on manager state. -/
def update_session_activity (s : SMState) (ts : Option ℚ) (now : ℚ) : SMState :=
  if ¬ s.current_session.isSome ∨ s.session_state ≠ .active then s
  else { s with last_activity_time := some (ts.getD now) }

/-- `SessionManager.update_session_idle_state` (lines 293-308). -/
def update_session_idle_state (s : SMState) (is_idle : Bool) (timestamp : ℚ) :
    SMState :=
  if ¬ s.current_session.isSome ∨ s.session_state ≠ .active then s
  else
    let s1 :=
      if is_idle then
        if ¬ truthyTime s.idle_start_time then
          { s with idle_start_time := some timestamp }
        else s
      else
        if truthyTime s.idle_start_time then
          { s with
              total_idle_time :=
                s.total_idle_time + (timestamp - s.idle_start_time.getD 0)
              idle_start_time := none }
        else s
    { s1 with last_activity_time := some timestamp }

/-! ## Operation traces and reachable manager states -/

/-- One call into the session manager's public API, with the outcomes of
its persistence-collaborator calls. -/
inductive SMOp where
  | opStart (topic description : String) (createRes : Except String Nat) (logOk : Bool)
  | opPause (reason : String) (logOk : Bool)
  | opResume (logOk : Bool)
  | opStop (success : Bool) (notes : String) (updateOk logOk : Bool)
  | opStatus
  | opActivity (ts : Option ℚ)
  | opIdle (is_idle : Bool)

/-- The manager state after one public-API call (whether or not the call
raised: raising leaves the mutations made so far in place). -/
def applyOp (s : SMState) (op : SMOp) (now : ℚ) : SMState :=
  match op with
  | .opStart topic d c l => (start_session s topic d now c l).1
  | .opPause r l => (pause_session s r now l).1
  | .opResume l => (resume_session s now l).1
  | .opStop su n u l => (stop_session s su n now u l).1
  | .opStatus => (get_current_status s now).1
  | .opActivity ts => update_session_activity s ts now
  | .opIdle b => update_session_idle_state s b now

/-- Sanity condition on an operation's time data: an activity event's
embedded timestamp was produced by `time.time()` at or before the call
that delivers it, and the wall clock is positive. -/
def opTimeOK : SMOp → ℚ → Prop
  | .opActivity (some ts), now => 0 < ts ∧ ts ≤ now
  | _, _ => True

/-- Manager states reachable by any sequence of public-API calls made at
non-decreasing positive wall-clock times, starting from a freshly
constructed manager with a positive idle threshold.  The second component
is the time of the latest call. -/
inductive Reachable : SMState → ℚ → Prop
  | init (thr : ℚ) (hthr : 0 < thr) : Reachable (initState thr) 0
  | step {s : SMState} {t : ℚ} (op : SMOp) (now : ℚ)
      (h0 : Reachable s t) (h1 : t ≤ now) (h2 : 0 < now)
      (h3 : opTimeOK op now) : Reachable (applyOp s op now) now

/-- The invariants of reachable manager states at latest call time `t`. -/
structure Inv (s : SMState) (t : ℚ) : Prop where
  thr_pos : 0 < s.idle_threshold
  state_session : s.session_state = .idle ↔ s.current_session = none
  not_completed : s.session_state ≠ .completed
  idle_zero : s.session_state = .idle →
    s.session_start_time = none ∧ s.last_activity_time = none ∧
    s.idle_start_time = none ∧ s.total_active_time = 0 ∧ s.total_idle_time = 0
  nonidle_start : s.session_state ≠ .idle →
    ∃ st, s.session_start_time = some st ∧ 0 < st
  nonidle_last : s.session_state ≠ .idle →
    ∃ l, s.last_activity_time = some l ∧ 0 < l ∧ l ≤ t
  idlestart_bound : ∀ x, s.idle_start_time = some x → 0 < x ∧ x ≤ t
  active_nonneg : 0 ≤ s.total_active_time
  idle_nonneg : 0 ≤ s.total_idle_time

/-! ## Basic lemmas about the embedded operations -/

theorem truthyTime_iff (o : Option ℚ) :
    truthyTime o = true ↔ ∃ x, o = some x ∧ x ≠ 0 := by
  cases o <;> simp [truthyTime]

theorem truthyTime_of_pos {x : ℚ} (h : 0 < x) :
    truthyTime (some x) = true := by
  simp [truthyTime]
  exact ne_of_gt h

theorem utt_preserves (s : SMState) (now : ℚ) :
    (update_time_tracking s now).current_session = s.current_session ∧
    (update_time_tracking s now).session_state = s.session_state ∧
    (update_time_tracking s now).session_start_time = s.session_start_time ∧
    (update_time_tracking s now).last_activity_time = s.last_activity_time ∧
    (update_time_tracking s now).idle_threshold = s.idle_threshold ∧
    (update_time_tracking s now).state_history = s.state_history ∧
    (update_time_tracking s now).observer_log = s.observer_log := by
  simp only [update_time_tracking]
  split_ifs <;> simp

theorem utt_of_not_truthy (s : SMState) (now : ℚ)
    (h : ¬ truthyTime s.session_start_time) :
    update_time_tracking s now = s := by
  simp only [update_time_tracking]
  simp [h]

theorem utt_sum_mono (s : SMState) (now : ℚ) (h0 : 0 ≤ now)
    (hlast : ∀ l, s.last_activity_time = some l → l ≤ now)
    (hidle : ∀ x, s.idle_start_time = some x → x ≤ now) :
    s.total_active_time + s.total_idle_time ≤
      (update_time_tracking s now).total_active_time +
      (update_time_tracking s now).total_idle_time := by
  have hl : s.last_activity_time.getD 0 ≤ now := by
    cases h : s.last_activity_time with
    | none => simpa using h0
    | some l => simpa using hlast l h
  have hni : s.idle_start_time.getD 0 ≤ now := by
    cases h : s.idle_start_time with
    | none => simpa using h0
    | some x => simpa using hidle x h
  have hmin : 0 ≤ min (now - s.last_activity_time.getD 0) 1 :=
    le_min (by linarith) zero_le_one
  simp only [update_time_tracking]
  split_ifs <;> simp <;> linarith

theorem Inv.mono_time {s : SMState} {t t' : ℚ} (h : Inv s t) (hle : t ≤ t') :
    Inv s t' where
  thr_pos := h.thr_pos
  state_session := h.state_session
  not_completed := h.not_completed
  idle_zero := h.idle_zero
  nonidle_start := h.nonidle_start
  nonidle_last := fun hn =>
    let ⟨l, h1, h2, h3⟩ := h.nonidle_last hn
    ⟨l, h1, h2, le_trans h3 hle⟩
  idlestart_bound := fun x hx =>
    let ⟨h1, h2⟩ := h.idlestart_bound x hx
    ⟨h1, le_trans h2 hle⟩
  active_nonneg := h.active_nonneg
  idle_nonneg := h.idle_nonneg

theorem cleanup_inv (s : SMState) (t : ℚ) (hthr : 0 < s.idle_threshold) :
    Inv (cleanup_session s) t where
  thr_pos := hthr
  state_session := by simp [cleanup_session]
  not_completed := by simp [cleanup_session]
  idle_zero := fun _ => by simp [cleanup_session]
  nonidle_start := fun hn => absurd rfl hn
  nonidle_last := fun hn => absurd rfl hn
  idlestart_bound := fun x hx => by simp [cleanup_session] at hx
  active_nonneg := le_refl 0
  idle_nonneg := le_refl 0

/-- The five possible outcomes of one `_update_time_tracking` call. -/
theorem utt_cases (s : SMState) (now : ℚ) :
    update_time_tracking s now = s ∨
    (s.session_state = .active ∧ s.idle_start_time = none ∧
      s.idle_threshold ≤ now - s.last_activity_time.getD 0 ∧
      update_time_tracking s now =
        { s with idle_start_time := some (s.last_activity_time.getD 0 + s.idle_threshold) }) ∨
    (s.session_state = .active ∧ truthyTime s.idle_start_time = true ∧
      now - s.last_activity_time.getD 0 < s.idle_threshold ∧
      update_time_tracking s now =
        { s with
            total_idle_time := s.total_idle_time + (now - s.idle_start_time.getD 0)
            idle_start_time := none
            total_active_time :=
              s.total_active_time + min (now - s.last_activity_time.getD 0) 1 }) ∨
    (s.session_state = .active ∧ truthyTime s.idle_start_time = false ∧
      now - s.last_activity_time.getD 0 < s.idle_threshold ∧
      update_time_tracking s now =
        { s with
            total_active_time :=
              s.total_active_time + min (now - s.last_activity_time.getD 0) 1 }) ∨
    (s.session_state = .paused ∧ truthyTime s.idle_start_time = true ∧
      update_time_tracking s now =
        { s with
            total_idle_time :=
              s.total_idle_time + (now - s.idle_start_time.getD 0) }) := by
  simp only [update_time_tracking]
  split_ifs <;> simp_all

theorem utt_inv {s : SMState} {t now : ℚ} (h : Inv s t) (hle : t ≤ now) :
    Inv (update_time_tracking s now) now := by
  rcases utt_cases s now with heq | ⟨ha, hin, hthr, heq⟩ | ⟨ha, hti, hlt, heq⟩ |
    ⟨ha, hti, hlt, heq⟩ | ⟨hp, hti, heq⟩
  · rw [heq]; exact h.mono_time hle
  · obtain ⟨l, hl, hlpos, hlt⟩ := h.nonidle_last (by simp [ha])
    have hgl : s.last_activity_time.getD 0 = l := by rw [hl]; rfl
    rw [heq]
    exact {
      thr_pos := h.thr_pos
      state_session := h.state_session
      not_completed := h.not_completed
      idle_zero := fun hi => by rw [ha] at hi; simp at hi
      nonidle_start := h.nonidle_start
      nonidle_last := fun hn =>
        let ⟨l', h1, h2, h3⟩ := h.nonidle_last hn
        ⟨l', h1, h2, le_trans h3 hle⟩
      idlestart_bound := fun x hx => by
        rw [Option.some_inj] at hx
        have hthr' : l + s.idle_threshold ≤ now := by rw [hgl] at hthr; linarith
        have hpos := h.thr_pos
        constructor <;> rw [← hx, hgl] <;> linarith
      active_nonneg := h.active_nonneg
      idle_nonneg := h.idle_nonneg }
  · obtain ⟨l, hl, hlpos, hllet⟩ := h.nonidle_last (by simp [ha])
    have hgl : s.last_activity_time.getD 0 = l := by rw [hl]; rfl
    obtain ⟨x, hx, -⟩ := (truthyTime_iff _).mp hti
    obtain ⟨hxpos, hxle⟩ := h.idlestart_bound x hx
    have hgx : s.idle_start_time.getD 0 = x := by rw [hx]; rfl
    rw [heq]
    exact {
      thr_pos := h.thr_pos
      state_session := h.state_session
      not_completed := h.not_completed
      idle_zero := fun hi => by rw [ha] at hi; simp at hi
      nonidle_start := h.nonidle_start
      nonidle_last := fun hn =>
        let ⟨l', h1, h2, h3⟩ := h.nonidle_last hn
        ⟨l', h1, h2, le_trans h3 hle⟩
      idlestart_bound := fun x hx => by simp at hx
      active_nonneg := by
        have : 0 ≤ min (now - s.last_activity_time.getD 0) 1 :=
          le_min (by rw [hgl]; linarith) zero_le_one
        have := h.active_nonneg
        simp only []
        linarith
      idle_nonneg := by
        have := h.idle_nonneg
        simp only []
        rw [hgx]
        linarith }
  · obtain ⟨l, hl, hlpos, hllet⟩ := h.nonidle_last (by simp [ha])
    have hgl : s.last_activity_time.getD 0 = l := by rw [hl]; rfl
    rw [heq]
    exact {
      thr_pos := h.thr_pos
      state_session := h.state_session
      not_completed := h.not_completed
      idle_zero := fun hi => by rw [ha] at hi; simp at hi
      nonidle_start := h.nonidle_start
      nonidle_last := fun hn =>
        let ⟨l', h1, h2, h3⟩ := h.nonidle_last hn
        ⟨l', h1, h2, le_trans h3 hle⟩
      idlestart_bound := fun x hx =>
        let ⟨h1, h2⟩ := h.idlestart_bound x hx
        ⟨h1, le_trans h2 hle⟩
      active_nonneg := by
        have : 0 ≤ min (now - s.last_activity_time.getD 0) 1 :=
          le_min (by rw [hgl]; linarith) zero_le_one
        have := h.active_nonneg
        simp only []
        linarith
      idle_nonneg := h.idle_nonneg }
  · obtain ⟨x, hx, -⟩ := (truthyTime_iff _).mp hti
    obtain ⟨hxpos, hxle⟩ := h.idlestart_bound x hx
    have hgx : s.idle_start_time.getD 0 = x := by rw [hx]; rfl
    rw [heq]
    exact {
      thr_pos := h.thr_pos
      state_session := h.state_session
      not_completed := h.not_completed
      idle_zero := fun hi => by rw [hp] at hi; simp at hi
      nonidle_start := h.nonidle_start
      nonidle_last := fun hn =>
        let ⟨l', h1, h2, h3⟩ := h.nonidle_last hn
        ⟨l', h1, h2, le_trans h3 hle⟩
      idlestart_bound := fun x hx =>
        let ⟨h1, h2⟩ := h.idlestart_bound x hx
        ⟨h1, le_trans h2 hle⟩
      active_nonneg := h.active_nonneg
      idle_nonneg := by
        have := h.idle_nonneg
        simp only []
        rw [hgx]
        linarith }

theorem trans_inv {s : SMState} {t now : ℚ} {ns : SessionState} {reason : String}
    (h : Inv s t) (hle : t ≤ now)
    (hns1 : ns ≠ .idle) (hns2 : ns ≠ .completed)
    (hs : s.session_state ≠ .idle) :
    Inv (transition_state s now ns reason).1 now where
  thr_pos := h.thr_pos
  state_session :=
    iff_of_false hns1 (fun hc => hs (h.state_session.mpr hc))
  not_completed := hns2
  idle_zero := fun hi => absurd hi hns1
  nonidle_start := fun _ => h.nonidle_start hs
  nonidle_last := fun _ =>
    let ⟨l, a, b, c⟩ := h.nonidle_last hs
    ⟨l, a, b, le_trans c hle⟩
  idlestart_bound := fun x hx =>
    let ⟨a, b⟩ := h.idlestart_bound x hx
    ⟨a, le_trans b hle⟩
  active_nonneg := h.active_nonneg
  idle_nonneg := h.idle_nonneg

theorem gss_inv {s : SMState} {t now : ℚ} (h : Inv s t) (hle : t ≤ now) :
    Inv (get_session_stats s now).1 now := by
  by_cases hts : truthyTime s.session_start_time
  · have heq : (get_session_stats s now).1 = update_time_tracking s now := by
      simp only [get_session_stats]; rw [if_pos hts]
    rw [heq]; exact utt_inv h hle
  · have heq : (get_session_stats s now).1 = s := by
      simp only [get_session_stats]; rw [if_neg hts]
    rw [heq]; exact h.mono_time hle

theorem init_inv (thr : ℚ) (hthr : 0 < thr) : Inv (initState thr) 0 where
  thr_pos := hthr
  state_session := iff_of_true rfl rfl
  not_completed := fun hc => SessionState.noConfusion hc
  idle_zero := fun _ => ⟨rfl, rfl, rfl, rfl, rfl⟩
  nonidle_start := fun hn => absurd rfl hn
  nonidle_last := fun hn => absurd rfl hn
  idlestart_bound := fun _ hx => Option.noConfusion hx
  active_nonneg := le_refl 0
  idle_nonneg := le_refl 0

theorem start_inv {s : SMState} {t : ℚ} (h : Inv s t)
    (topic d : String) (now : ℚ) (cr : Except String Nat) (lo : Bool)
    (hle : t ≤ now) (hnow : 0 < now) :
    Inv (start_session s topic d now cr lo).1 now := by
  by_cases hs : s.session_state = .idle
  · have hng : ¬ s.session_state ≠ .idle := not_not_intro hs
    cases cr with
    | error e =>
      have heq : (start_session s topic d now (.error e) lo).1 = cleanup_session s := by
        simp only [start_session]; rw [if_neg hng]
      rw [heq]; exact cleanup_inv s now h.thr_pos
    | ok sid =>
      cases lo with
      | false =>
        have heq : (start_session s topic d now (.ok sid) false).1 =
            cleanup_session (transition_state
              { s with
                  current_session := some
                    { id := sid, topic := topic, description := d
                      start_timestamp := now }
                  session_start_time := some now
                  last_activity_time := some now
                  total_active_time := 0
                  total_idle_time := 0
                  idle_start_time := none } now .active "Session started").1 := by
          simp only [start_session]; rw [if_neg hng]; rfl
        rw [heq]; exact cleanup_inv _ now h.thr_pos
      | true =>
        have heq : (start_session s topic d now (.ok sid) true).1 =
            (transition_state
              { s with
                  current_session := some
                    { id := sid, topic := topic, description := d
                      start_timestamp := now }
                  session_start_time := some now
                  last_activity_time := some now
                  total_active_time := 0
                  total_idle_time := 0
                  idle_start_time := none } now .active "Session started").1 := by
          simp only [start_session]; rw [if_neg hng]; rfl
        rw [heq]
        exact {
          thr_pos := h.thr_pos
          state_session := iff_of_false
            (fun hc => SessionState.noConfusion hc)
            (fun hc => Option.noConfusion hc)
          not_completed := fun hc => SessionState.noConfusion hc
          idle_zero := fun hi => absurd hi (fun hc => SessionState.noConfusion hc)
          nonidle_start := fun _ => ⟨now, rfl, hnow⟩
          nonidle_last := fun _ => ⟨now, rfl, hnow, le_refl now⟩
          idlestart_bound := fun _ hx => Option.noConfusion hx
          active_nonneg := le_refl 0
          idle_nonneg := le_refl 0 }
  · have heq : (start_session s topic d now cr lo).1 = s := by
      simp only [start_session]; rw [if_pos hs]
    rw [heq]; exact h.mono_time hle

theorem set_idle_start_inv {s : SMState} {t : ℚ} (h : Inv s t) (v : ℚ)
    (hv : 0 < v) (hvle : v ≤ t) (hs : s.session_state ≠ .idle) :
    Inv { s with idle_start_time := some v } t where
  thr_pos := h.thr_pos
  state_session := h.state_session
  not_completed := h.not_completed
  idle_zero := fun hi => absurd hi hs
  nonidle_start := fun _ => h.nonidle_start hs
  nonidle_last := fun _ => h.nonidle_last hs
  idlestart_bound := fun x hx => by
    have hvx : v = x := Option.some_inj.mp hx
    exact ⟨hvx ▸ hv, hvx ▸ hvle⟩
  active_nonneg := h.active_nonneg
  idle_nonneg := h.idle_nonneg

theorem set_last_inv {s : SMState} {t : ℚ} (h : Inv s t) (v : ℚ)
    (hv : 0 < v) (hvle : v ≤ t) (hs : s.session_state ≠ .idle) :
    Inv { s with last_activity_time := some v } t where
  thr_pos := h.thr_pos
  state_session := h.state_session
  not_completed := h.not_completed
  idle_zero := fun hi => absurd hi hs
  nonidle_start := fun _ => h.nonidle_start hs
  nonidle_last := fun _ => ⟨v, rfl, hv, hvle⟩
  idlestart_bound := h.idlestart_bound
  active_nonneg := h.active_nonneg
  idle_nonneg := h.idle_nonneg

theorem close_idle_inv {s : SMState} {t now : ℚ} (h : Inv s t)
    (h0 : 0 ≤ now) (hle : t ≤ now) (hs : s.session_state ≠ .idle) :
    Inv { s with
            total_idle_time := s.total_idle_time + (now - s.idle_start_time.getD 0)
            idle_start_time := none } now where
  thr_pos := h.thr_pos
  state_session := h.state_session
  not_completed := h.not_completed
  idle_zero := fun hi => absurd hi hs
  nonidle_start := fun _ => h.nonidle_start hs
  nonidle_last := fun _ =>
    let ⟨l, a, b, c⟩ := h.nonidle_last hs
    ⟨l, a, b, le_trans c hle⟩
  idlestart_bound := fun x hx => Option.noConfusion hx
  active_nonneg := h.active_nonneg
  idle_nonneg := by
    have hx : s.idle_start_time.getD 0 ≤ now := by
      cases hi : s.idle_start_time with
      | none => simpa using h0
      | some x =>
        have := (h.idlestart_bound x hi).2
        simp only [hi, Option.getD_some]
        linarith
    have := h.idle_nonneg
    simp only []
    linarith

theorem pause_inv {s : SMState} {t : ℚ} (h : Inv s t) (r : String) (now : ℚ)
    (lo : Bool) (hle : t ≤ now) (hnow : 0 < now) :
    Inv (pause_session s r now lo).1 now := by
  by_cases hs : s.session_state = .active
  · have hng : ¬ s.session_state ≠ .active := not_not_intro hs
    have hu : Inv (update_time_tracking s now) now := utt_inv h hle
    have hustate : (update_time_tracking s now).session_state ≠ .idle := by
      rw [(utt_preserves s now).2.1, hs]
      exact fun hc => SessionState.noConfusion hc
    have h2 : Inv { update_time_tracking s now with idle_start_time := some now } now :=
      set_idle_start_inv hu now hnow (le_refl now) hustate
    have h3 : Inv (transition_state
        { update_time_tracking s now with idle_start_time := some now }
        now .paused r).1 now :=
      trans_inv h2 (le_refl now) (fun hc => SessionState.noConfusion hc)
        (fun hc => SessionState.noConfusion hc) hustate
    cases lo with
    | true =>
      have heq : (pause_session s r now true).1 =
          (get_session_stats (transition_state
            { update_time_tracking s now with idle_start_time := some now }
            now .paused r).1 now).1 := by
        simp only [pause_session]; rw [if_neg hng]; rfl
      rw [heq]; exact gss_inv h3 (le_refl now)
    | false =>
      have heq : (pause_session s r now false).1 =
          (transition_state
            { update_time_tracking s now with idle_start_time := some now }
            now .paused r).1 := by
        simp only [pause_session]; rw [if_neg hng]; rfl
      rw [heq]; exact h3
  · have heq : (pause_session s r now lo).1 = s := by
      simp only [pause_session]; rw [if_pos hs]
    rw [heq]; exact h.mono_time hle

theorem resume_inv {s : SMState} {t : ℚ} (h : Inv s t) (now : ℚ)
    (lo : Bool) (hle : t ≤ now) (hnow : 0 < now) :
    Inv (resume_session s now lo).1 now := by
  by_cases hs : s.session_state = .paused
  · have hng : ¬ s.session_state ≠ .paused := not_not_intro hs
    have hsni : s.session_state ≠ .idle := by
      rw [hs]; exact fun hc => SessionState.noConfusion hc
    by_cases hti : truthyTime s.idle_start_time = true
    · have h1 : Inv { s with
          total_idle_time := s.total_idle_time + (now - s.idle_start_time.getD 0)
          idle_start_time := none } now :=
        close_idle_inv h (le_of_lt hnow) hle hsni

      have h2 : Inv { s with
          total_idle_time := s.total_idle_time + (now - s.idle_start_time.getD 0)
          idle_start_time := none
          last_activity_time := some now } now :=
        set_last_inv h1 now hnow (le_refl now) hsni
      have h3 : Inv (transition_state
          { s with
              total_idle_time := s.total_idle_time + (now - s.idle_start_time.getD 0)
              idle_start_time := none
              last_activity_time := some now }
          now .active "Session resumed").1 now :=
        trans_inv h2 (le_refl now) (fun hc => SessionState.noConfusion hc)
          (fun hc => SessionState.noConfusion hc) hsni
      cases lo with
      | true =>
        have heq : (resume_session s now true).1 =
            (get_session_stats (transition_state
              { s with
                  total_idle_time := s.total_idle_time + (now - s.idle_start_time.getD 0)
                  idle_start_time := none
                  last_activity_time := some now }
              now .active "Session resumed").1 now).1 := by
          simp only [resume_session]; rw [if_neg hng, if_pos hti]; rfl
        rw [heq]; exact gss_inv h3 (le_refl now)
      | false =>
        have heq : (resume_session s now false).1 =
            (transition_state
              { s with
                  total_idle_time := s.total_idle_time + (now - s.idle_start_time.getD 0)
                  idle_start_time := none
                  last_activity_time := some now }
              now .active "Session resumed").1 := by
          simp only [resume_session]; rw [if_neg hng, if_pos hti]; rfl
        rw [heq]; exact h3
    · have h2 : Inv { s with last_activity_time := some now } now :=
        set_last_inv (h.mono_time hle) now hnow (le_refl now) hsni
      have h3 : Inv (transition_state
          { s with last_activity_time := some now }
          now .active "Session resumed").1 now :=
        trans_inv h2 (le_refl now) (fun hc => SessionState.noConfusion hc)
          (fun hc => SessionState.noConfusion hc) hsni
      cases lo with
      | true =>
        have heq : (resume_session s now true).1 =
            (get_session_stats (transition_state
              { s with last_activity_time := some now }
              now .active "Session resumed").1 now).1 := by
          simp only [resume_session]; rw [if_neg hng, if_neg hti]; rfl
        rw [heq]; exact gss_inv h3 (le_refl now)
      | false =>
        have heq : (resume_session s now false).1 =
            (transition_state
              { s with last_activity_time := some now }
              now .active "Session resumed").1 := by
          simp only [resume_session]; rw [if_neg hng, if_neg hti]; rfl
        rw [heq]; exact h3
  · have heq : (resume_session s now lo).1 = s := by
      simp only [resume_session]; rw [if_pos hs]
    rw [heq]; exact h.mono_time hle

theorem stop_inv {s : SMState} {t : ℚ} (h : Inv s t) (su : Bool) (n : String)
    (now : ℚ) (uo lo : Bool) (hle : t ≤ now) :
    Inv (stop_session s su n now uo lo).1 now := by
  have hthr : 0 < (update_time_tracking s now).idle_threshold := by
    rw [(utt_preserves s now).2.2.2.2.1]; exact h.thr_pos
  by_cases hs : s.session_state = .active ∨ s.session_state = .paused
  · have hng : ¬ ¬ (s.session_state = .active ∨ s.session_state = .paused) :=
      not_not_intro hs
    cases uo with
    | false =>
      have heq : (stop_session s su n now false lo).1 =
          cleanup_session (update_time_tracking s now) := by
        simp only [stop_session]; rw [if_neg hng]; rfl
      rw [heq]; exact cleanup_inv _ now hthr
    | true =>
      cases lo with
      | false =>
        have heq : (stop_session s su n now true false).1 =
            cleanup_session (transition_state (update_time_tracking s now) now
              .completed ("Session completed: " ++ n)).1 := by
          simp only [stop_session]; rw [if_neg hng]; rfl
        rw [heq]; exact cleanup_inv _ now hthr
      | true =>
        have heq : (stop_session s su n now true true).1 =
            cleanup_session (transition_state (update_time_tracking s now) now
              .completed ("Session completed: " ++ n)).1 := by
          simp only [stop_session]; rw [if_neg hng]; rfl
        rw [heq]; exact cleanup_inv _ now hthr
  · have heq : (stop_session s su n now uo lo).1 = s := by
      simp only [stop_session]; rw [if_pos hs]
    rw [heq]; exact h.mono_time hle

theorem status_inv {s : SMState} {t : ℚ} (h : Inv s t) (now : ℚ)
    (hle : t ≤ now) :
    Inv (get_current_status s now).1 now := by
  by_cases hg : ¬ s.current_session.isSome ∨ s.session_state = .idle
  · have heq : (get_current_status s now).1 = s := by
      simp only [get_current_status]; rw [if_pos hg]
    rw [heq]; exact h.mono_time hle
  · have heq : (get_current_status s now).1 = update_time_tracking s now := by
      simp only [get_current_status]; rw [if_neg hg]
    rw [heq]; exact utt_inv h hle

theorem activity_inv {s : SMState} {t : ℚ} (h : Inv s t) (ts : Option ℚ)
    (now : ℚ) (hle : t ≤ now) (hnow : 0 < now)
    (hts : ∀ τ, ts = some τ → 0 < τ ∧ τ ≤ now) :
    Inv (update_session_activity s ts now) now := by
  by_cases hg : ¬ s.current_session.isSome ∨ s.session_state ≠ .active
  · have heq : update_session_activity s ts now = s := by
      simp only [update_session_activity]; rw [if_pos hg]
    rw [heq]; exact h.mono_time hle
  · push_neg at hg
    have hsni : s.session_state ≠ .idle := by
      rw [hg.2]; exact fun hc => SessionState.noConfusion hc
    have heq : update_session_activity s ts now =
        { s with last_activity_time := some (ts.getD now) } := by
      simp only [update_session_activity]
      rw [if_neg (by push_neg; exact hg)]
    rw [heq]
    have hv : 0 < ts.getD now ∧ ts.getD now ≤ now := by
      cases hτ : ts with
      | none => exact ⟨by simpa using hnow, by simp⟩
      | some τ =>
        have := hts τ hτ
        simpa using this
    exact set_last_inv (h.mono_time hle) _ hv.1 hv.2 hsni

theorem idle_upd_inv {s : SMState} {t : ℚ} (h : Inv s t) (b : Bool)
    (now : ℚ) (hle : t ≤ now) (hnow : 0 < now) :
    Inv (update_session_idle_state s b now) now := by
  by_cases hg : ¬ s.current_session.isSome ∨ s.session_state ≠ .active
  · have heq : update_session_idle_state s b now = s := by
      simp only [update_session_idle_state]; rw [if_pos hg]
    rw [heq]; exact h.mono_time hle
  · push_neg at hg
    have hgn : ¬ (¬ s.current_session.isSome ∨ s.session_state ≠ .active) := by
      push_neg; exact hg
    have hsni : s.session_state ≠ .idle := by
      rw [hg.2]; exact fun hc => SessionState.noConfusion hc
    cases b with
    | true =>
      by_cases hti : truthyTime s.idle_start_time = true
      · have heq : update_session_idle_state s true now =
            { s with last_activity_time := some now } := by
          simp only [update_session_idle_state]
          rw [if_neg hgn, if_neg (not_not_intro hti)]; rfl
        rw [heq]
        exact set_last_inv (h.mono_time hle) now hnow (le_refl now) hsni
      · have heq : update_session_idle_state s true now =
            { s with
                idle_start_time := some now
                last_activity_time := some now } := by
          simp only [update_session_idle_state]
          rw [if_neg hgn, if_pos hti]; rfl
        rw [heq]
        exact set_last_inv
          (set_idle_start_inv (h.mono_time hle) now hnow (le_refl now) hsni)
          now hnow (le_refl now) hsni
    | false =>
      by_cases hti : truthyTime s.idle_start_time = true
      · have heq : update_session_idle_state s false now =
            { s with
                total_idle_time := s.total_idle_time + (now - s.idle_start_time.getD 0)
                idle_start_time := none
                last_activity_time := some now } := by
          simp only [update_session_idle_state]
          rw [if_neg hgn, if_pos hti]; rfl
        rw [heq]
        exact set_last_inv (close_idle_inv h (le_of_lt hnow) hle hsni)
          now hnow (le_refl now) hsni
      · have heq : update_session_idle_state s false now =
            { s with last_activity_time := some now } := by
          simp only [update_session_idle_state]
          rw [if_neg hgn, if_neg hti]; rfl
        rw [heq]
        exact set_last_inv (h.mono_time hle) now hnow (le_refl now) hsni

theorem applyOp_inv {s : SMState} {t : ℚ} (h : Inv s t) (op : SMOp) (now : ℚ)
    (hle : t ≤ now) (hnow : 0 < now) (hok : opTimeOK op now) :
    Inv (applyOp s op now) now := by
  cases op with
  | opStart topic d cr lo => exact start_inv h topic d now cr lo hle hnow
  | opPause r lo => exact pause_inv h r now lo hle hnow
  | opResume lo => exact resume_inv h now lo hle hnow
  | opStop su n uo lo => exact stop_inv h su n now uo lo hle
  | opStatus => exact status_inv h now hle
  | opActivity ts =>
    refine activity_inv h ts now hle hnow (fun τ hτ => ?_)
    cases ts with
    | none => exact Option.noConfusion hτ
    | some τ' =>
      rw [Option.some_inj] at hτ
      subst hτ
      exact hok
  | opIdle b => exact idle_upd_inv h b now hle hnow

theorem reachable_inv {s : SMState} {t : ℚ} (h : Reachable s t) : Inv s t := by
  induction h with
  | init thr hthr => exact init_inv thr hthr
  | step op now _ hle hnow hok ih => exact applyOp_inv ih op now hle hnow hok

/-! ## Transition discipline -/

/-- The five legal transitions of the spec's state diagram. -/
def allowedTransition (e : StateTransition) : Prop :=
  (e.from_state = .idle ∧ e.to_state = .active) ∨
  (e.from_state = .active ∧ e.to_state = .paused) ∨
  (e.from_state = .paused ∧ e.to_state = .active) ∨
  (e.from_state = .active ∧ e.to_state = .completed) ∨
  (e.from_state = .paused ∧ e.to_state = .completed)

theorem ts_log (s : SMState) (now : ℚ) (ns : SessionState) (r : String) :
    (transition_state s now ns r).1.observer_log =
      s.observer_log ++ [(transition_state s now ns r).2] := rfl

theorem ts_from (s : SMState) (now : ℚ) (ns : SessionState) (r : String) :
    (transition_state s now ns r).2.from_state = s.session_state := rfl

theorem ts_to (s : SMState) (now : ℚ) (ns : SessionState) (r : String) :
    (transition_state s now ns r).2.to_state = ns := rfl

theorem cleanup_log (s : SMState) :
    (cleanup_session s).observer_log = s.observer_log := rfl

theorem gss_log (s : SMState) (now : ℚ) :
    (get_session_stats s now).1.observer_log = s.observer_log := by
  by_cases hts : truthyTime s.session_start_time
  · have heq : (get_session_stats s now).1 = update_time_tracking s now := by
      simp only [get_session_stats]; rw [if_pos hts]
    rw [heq]; exact (utt_preserves s now).2.2.2.2.2.2
  · have heq : (get_session_stats s now).1 = s := by
      simp only [get_session_stats]; rw [if_neg hts]
    rw [heq]

theorem log_extension {s : SMState} {L : List StateTransition}
    {c : StateTransition} (hL : L = s.observer_log ++ [c])
    (hc : allowedTransition c) :
    ∀ e ∈ L, e ∈ s.observer_log ∨ allowedTransition e := by
  intro e he
  rw [hL, List.mem_append] at he
  rcases he with h | h
  · exact .inl h
  · rw [List.mem_singleton] at h
    exact .inr (h ▸ hc)

/-- The wrong-state guard of `start_session` (lines 49-52). -/
theorem start_guard (s : SMState) (topic d : String) (now : ℚ)
    (cr : Except String Nat) (lo : Bool) (hs : s.session_state ≠ .idle) :
    start_session s topic d now cr lo = (s, .error (.invalidState
      ("Cannot start session - currently in " ++ s.session_state.value ++ " state"))) := by
  simp only [start_session]; rw [if_pos hs]

/-- The wrong-state guard of `pause_session` (lines 106-109). -/
theorem pause_guard (s : SMState) (r : String) (now : ℚ) (lo : Bool)
    (hs : s.session_state ≠ .active) :
    pause_session s r now lo = (s, .error (.invalidState
      ("Cannot pause session - currently in " ++ s.session_state.value ++ " state"))) := by
  simp only [pause_session]; rw [if_pos hs]

/-- The wrong-state guard of `resume_session` (lines 129-132). -/
theorem resume_guard (s : SMState) (now : ℚ) (lo : Bool)
    (hs : s.session_state ≠ .paused) :
    resume_session s now lo = (s, .error (.invalidState
      ("Cannot resume session - currently in " ++ s.session_state.value ++ " state"))) := by
  simp only [resume_session]; rw [if_pos hs]

/-- The wrong-state guard of `stop_session` (lines 161-164). -/
theorem stop_guard (s : SMState) (su : Bool) (n : String) (now : ℚ)
    (uo lo : Bool)
    (hs : ¬ (s.session_state = .active ∨ s.session_state = .paused)) :
    stop_session s su n now uo lo = (s, .error (.invalidState
      ("Cannot stop session - currently in " ++ s.session_state.value ++ " state"))) := by
  simp only [stop_session]; rw [if_pos hs]

theorem start_log (s : SMState) (topic d : String) (now : ℚ)
    (cr : Except String Nat) (lo : Bool) :
    ∀ e ∈ (start_session s topic d now cr lo).1.observer_log,
      e ∈ s.observer_log ∨ allowedTransition e := by
  by_cases hs : s.session_state = .idle
  · have hng : ¬ s.session_state ≠ .idle := not_not_intro hs
    cases cr with
    | error e' =>
      have heq : (start_session s topic d now (.error e') lo).1 =
          cleanup_session s := by
        simp only [start_session]; rw [if_neg hng]
      rw [heq, cleanup_log]
      exact fun e he => .inl he
    | ok sid =>
      have hc : allowedTransition
          ((transition_state
            { s with
                current_session := some
                  { id := sid, topic := topic, description := d
                    start_timestamp := now }
                session_start_time := some now
                last_activity_time := some now
                total_active_time := 0
                total_idle_time := 0
                idle_start_time := none } now .active "Session started").2) :=
        Or.inl ⟨hs, rfl⟩
      cases lo with
      | true =>
        have hL : (start_session s topic d now (.ok sid) true).1.observer_log =
            s.observer_log ++ [(transition_state
              { s with
                  current_session := some
                    { id := sid, topic := topic, description := d
                      start_timestamp := now }
                  session_start_time := some now
                  last_activity_time := some now
                  total_active_time := 0
                  total_idle_time := 0
                  idle_start_time := none } now .active "Session started").2] := by
          simp only [start_session]; rw [if_neg hng]; rfl
        exact log_extension hL hc
      | false =>
        have hL : (start_session s topic d now (.ok sid) false).1.observer_log =
            s.observer_log ++ [(transition_state
              { s with
                  current_session := some
                    { id := sid, topic := topic, description := d
                      start_timestamp := now }
                  session_start_time := some now
                  last_activity_time := some now
                  total_active_time := 0
                  total_idle_time := 0
                  idle_start_time := none } now .active "Session started").2] := by
          simp only [start_session]; rw [if_neg hng]; rfl
        exact log_extension hL hc
  · rw [start_guard s topic d now cr lo hs]
    exact fun e he => .inl he

theorem pause_log (s : SMState) (r : String) (now : ℚ) (lo : Bool) :
    ∀ e ∈ (pause_session s r now lo).1.observer_log,
      e ∈ s.observer_log ∨ allowedTransition e := by
  by_cases hs : s.session_state = .active
  · have hng : ¬ s.session_state ≠ .active := not_not_intro hs
    have hc : allowedTransition
        ((transition_state
          { update_time_tracking s now with idle_start_time := some now }
          now .paused r).2) := by
      refine Or.inr (Or.inl ⟨?_, rfl⟩)
      show (update_time_tracking s now).session_state = .active
      rw [(utt_preserves s now).2.1]; exact hs
    have hlog : ∀ lo', (pause_session s r now lo').1.observer_log =
        s.observer_log ++ [(transition_state
          { update_time_tracking s now with idle_start_time := some now }
          now .paused r).2] := by
      intro lo'
      cases lo' with
      | true =>
        have heq : (pause_session s r now true).1 =
            (get_session_stats (transition_state
              { update_time_tracking s now with idle_start_time := some now }
              now .paused r).1 now).1 := by
          simp only [pause_session]; rw [if_neg hng]; rfl
        rw [heq, gss_log, ts_log]
        show (update_time_tracking s now).observer_log ++ _ = _
        rw [(utt_preserves s now).2.2.2.2.2.2]
      | false =>
        have heq : (pause_session s r now false).1 =
            (transition_state
              { update_time_tracking s now with idle_start_time := some now }
              now .paused r).1 := by
          simp only [pause_session]; rw [if_neg hng]; rfl
        rw [heq, ts_log]
        show (update_time_tracking s now).observer_log ++ _ = _
        rw [(utt_preserves s now).2.2.2.2.2.2]
    exact log_extension (hlog lo) hc
  · rw [pause_guard s r now lo hs]
    exact fun e he => .inl he

theorem resume_log (s : SMState) (now : ℚ) (lo : Bool) :
    ∀ e ∈ (resume_session s now lo).1.observer_log,
      e ∈ s.observer_log ∨ allowedTransition e := by
  by_cases hs : s.session_state = .paused
  · have hng : ¬ s.session_state ≠ .paused := not_not_intro hs
    by_cases hti : truthyTime s.idle_start_time = true
    · have hc : allowedTransition
          ((transition_state
            { s with
                total_idle_time := s.total_idle_time + (now - s.idle_start_time.getD 0)
                idle_start_time := none
                last_activity_time := some now }
            now .active "Session resumed").2) :=
        Or.inr (Or.inr (Or.inl ⟨hs, rfl⟩))
      have hlog : ∀ lo', (resume_session s now lo').1.observer_log =
          s.observer_log ++ [(transition_state
            { s with
                total_idle_time := s.total_idle_time + (now - s.idle_start_time.getD 0)
                idle_start_time := none
                last_activity_time := some now }
            now .active "Session resumed").2] := by
        intro lo'
        cases lo' with
        | true =>
          have heq : (resume_session s now true).1 =
              (get_session_stats (transition_state
                { s with
                    total_idle_time := s.total_idle_time + (now - s.idle_start_time.getD 0)
                    idle_start_time := none
                    last_activity_time := some now }
                now .active "Session resumed").1 now).1 := by
            simp only [resume_session]; rw [if_neg hng, if_pos hti]; rfl
          rw [heq, gss_log, ts_log]
        | false =>
          have heq : (resume_session s now false).1 =
              (transition_state
                { s with
                    total_idle_time := s.total_idle_time + (now - s.idle_start_time.getD 0)
                    idle_start_time := none
                    last_activity_time := some now }
                now .active "Session resumed").1 := by
            simp only [resume_session]; rw [if_neg hng, if_pos hti]; rfl
          rw [heq, ts_log]
      exact log_extension (hlog lo) hc
    · have hc : allowedTransition
          ((transition_state { s with last_activity_time := some now }
            now .active "Session resumed").2) :=
        Or.inr (Or.inr (Or.inl ⟨hs, rfl⟩))
      have hlog : ∀ lo', (resume_session s now lo').1.observer_log =
          s.observer_log ++ [(transition_state
            { s with last_activity_time := some now }
            now .active "Session resumed").2] := by
        intro lo'
        cases lo' with
        | true =>
          have heq : (resume_session s now true).1 =
              (get_session_stats (transition_state
                { s with last_activity_time := some now }
                now .active "Session resumed").1 now).1 := by
            simp only [resume_session]; rw [if_neg hng, if_neg hti]; rfl
          rw [heq, gss_log, ts_log]
        | false =>
          have heq : (resume_session s now false).1 =
              (transition_state
                { s with last_activity_time := some now }
                now .active "Session resumed").1 := by
            simp only [resume_session]; rw [if_neg hng, if_neg hti]; rfl
          rw [heq, ts_log]
      exact log_extension (hlog lo) hc
  · rw [resume_guard s now lo hs]
    exact fun e he => .inl he

theorem stop_log (s : SMState) (su : Bool) (n : String) (now : ℚ)
    (uo lo : Bool) :
    ∀ e ∈ (stop_session s su n now uo lo).1.observer_log,
      e ∈ s.observer_log ∨ allowedTransition e := by
  by_cases hs : s.session_state = .active ∨ s.session_state = .paused
  · have hng : ¬ ¬ (s.session_state = .active ∨ s.session_state = .paused) :=
      not_not_intro hs
    have hc : allowedTransition
        ((transition_state (update_time_tracking s now) now .completed
          ("Session completed: " ++ n)).2) := by
      have hst : (update_time_tracking s now).session_state = s.session_state :=
        (utt_preserves s now).2.1
      rcases hs with h | h
      · exact Or.inr (Or.inr (Or.inr (Or.inl ⟨by rw [ts_from, hst]; exact h, rfl⟩)))
      · exact Or.inr (Or.inr (Or.inr (Or.inr ⟨by rw [ts_from, hst]; exact h, rfl⟩)))
    cases uo with
    | false =>
      have heq : (stop_session s su n now false lo).1 =
          cleanup_session (update_time_tracking s now) := by
        simp only [stop_session]; rw [if_neg hng]; rfl
      rw [heq, cleanup_log, (utt_preserves s now).2.2.2.2.2.2]
      exact fun e he => .inl he
    | true =>
      have hL : (stop_session s su n now true lo).1.observer_log =
          s.observer_log ++ [(transition_state (update_time_tracking s now) now
            .completed ("Session completed: " ++ n)).2] := by
        cases lo with
        | false =>
          have heq : (stop_session s su n now true false).1 =
              cleanup_session (transition_state (update_time_tracking s now) now
                .completed ("Session completed: " ++ n)).1 := by
            simp only [stop_session]; rw [if_neg hng]; rfl
          rw [heq, cleanup_log, ts_log, (utt_preserves s now).2.2.2.2.2.2]
        | true =>
          have heq : (stop_session s su n now true true).1 =
              cleanup_session (transition_state (update_time_tracking s now) now
                .completed ("Session completed: " ++ n)).1 := by
            simp only [stop_session]; rw [if_neg hng]; rfl
          rw [heq, cleanup_log, ts_log, (utt_preserves s now).2.2.2.2.2.2]
      exact log_extension hL hc
  · rw [stop_guard s su n now uo lo hs]
    exact fun e he => .inl he

theorem status_log (s : SMState) (now : ℚ) :
    (get_current_status s now).1.observer_log = s.observer_log := by
  by_cases hg : ¬ s.current_session.isSome ∨ s.session_state = .idle
  · have heq : (get_current_status s now).1 = s := by
      simp only [get_current_status]; rw [if_pos hg]
    rw [heq]
  · have heq : (get_current_status s now).1 = update_time_tracking s now := by
      simp only [get_current_status]; rw [if_neg hg]
    rw [heq, (utt_preserves s now).2.2.2.2.2.2]

theorem activity_log (s : SMState) (ts : Option ℚ) (now : ℚ) :
    (update_session_activity s ts now).observer_log = s.observer_log := by
  by_cases hg : ¬ s.current_session.isSome ∨ s.session_state ≠ .active
  · have heq : update_session_activity s ts now = s := by
      simp only [update_session_activity]; rw [if_pos hg]
    rw [heq]
  · have heq : update_session_activity s ts now =
        { s with last_activity_time := some (ts.getD now) } := by
      simp only [update_session_activity]; rw [if_neg hg]
    rw [heq]

theorem idle_upd_log (s : SMState) (b : Bool) (ts : ℚ) :
    (update_session_idle_state s b ts).observer_log = s.observer_log := by
  by_cases hg : ¬ s.current_session.isSome ∨ s.session_state ≠ .active
  · have heq : update_session_idle_state s b ts = s := by
      simp only [update_session_idle_state]; rw [if_pos hg]
    rw [heq]
  · cases b with
    | true =>
      by_cases hti : truthyTime s.idle_start_time = true
      · have heq : update_session_idle_state s true ts =
            { s with last_activity_time := some ts } := by
          simp only [update_session_idle_state]
          rw [if_neg hg, if_neg (not_not_intro hti)]; rfl
        rw [heq]
      · have heq : update_session_idle_state s true ts =
            { s with
                idle_start_time := some ts
                last_activity_time := some ts } := by
          simp only [update_session_idle_state]
          rw [if_neg hg, if_pos hti]; rfl
        rw [heq]
    | false =>
      by_cases hti : truthyTime s.idle_start_time = true
      · have heq : update_session_idle_state s false ts =
            { s with
                total_idle_time := s.total_idle_time + (ts - s.idle_start_time.getD 0)
                idle_start_time := none
                last_activity_time := some ts } := by
          simp only [update_session_idle_state]
          rw [if_neg hg, if_pos hti]; rfl
        rw [heq]
      · have heq : update_session_idle_state s false ts =
            { s with last_activity_time := some ts } := by
          simp only [update_session_idle_state]
          rw [if_neg hg, if_neg hti]; rfl
        rw [heq]

/-! ## Claim C1 -/

/-- Claim C1: for every sequence of calls to the session state machine, the
only transitions ever recorded (as `state_changed` notifications by
`_transition_state`) are Idle-start-Active, Active-pause-Paused,
Paused-resume-Active, Active-stop-Completed and Paused-stop-Completed; and
each of `start_session`, `pause_session`, `resume_session`, `stop_session`
invoked outside its listed source state raises a `ValueError` whose message
names the current state and leaves the manager state (hence all
transitions) untouched.  (The silent reset of the discarded
session back to logical Idle by `_cleanup_session` is not a recorded
transition.) -/
theorem c1_legal_transitions_and_guards (s : SMState) (now : ℚ) :
    (∀ op : SMOp, ∀ e ∈ (applyOp s op now).observer_log,
      e ∈ s.observer_log ∨ allowedTransition e) ∧
    (∀ topic d cr lo, s.session_state ≠ .idle →
      start_session s topic d now cr lo = (s, .error (.invalidState
        ("Cannot start session - currently in " ++ s.session_state.value ++ " state")))) ∧
    (∀ r lo, s.session_state ≠ .active →
      pause_session s r now lo = (s, .error (.invalidState
        ("Cannot pause session - currently in " ++ s.session_state.value ++ " state")))) ∧
    (∀ lo, s.session_state ≠ .paused →
      resume_session s now lo = (s, .error (.invalidState
        ("Cannot resume session - currently in " ++ s.session_state.value ++ " state")))) ∧
    (∀ su n uo lo, ¬ (s.session_state = .active ∨ s.session_state = .paused) →
      stop_session s su n now uo lo = (s, .error (.invalidState
        ("Cannot stop session - currently in " ++ s.session_state.value ++ " state")))) := by
  refine ⟨fun op => ?_, fun topic d cr lo hs => start_guard s topic d now cr lo hs,
    fun r lo hs => pause_guard s r now lo hs,
    fun lo hs => resume_guard s now lo hs,
    fun su n uo lo hs => stop_guard s su n now uo lo hs⟩
  cases op with
  | opStart topic d cr lo => exact start_log s topic d now cr lo
  | opPause r lo => exact pause_log s r now lo
  | opResume lo => exact resume_log s now lo
  | opStop su n uo lo => exact stop_log s su n now uo lo
  | opStatus =>
    intro e he
    have he' : e ∈ (get_current_status s now).1.observer_log := he
    rw [status_log s now] at he'
    exact .inl he'
  | opActivity ts =>
    intro e he
    have he' : e ∈ (update_session_activity s ts now).observer_log := he
    rw [activity_log s ts now] at he'
    exact .inl he'
  | opIdle b =>
    intro e he
    have he' : e ∈ (update_session_idle_state s b now).observer_log := he
    rw [idle_upd_log s b now] at he'
    exact .inl he'

/-- Witness for C1: on a fresh manager (state Idle), `pause_session` is
rejected with the invalid-state error naming "idle", leaving the state
unchanged, and a successful `start_session` records exactly the
Idle-to-Active transition. -/
theorem c1_witness :
    (initState 3).session_state ≠ SessionState.active ∧
    pause_session (initState 3) "manual" 1 true =
      (initState 3, .error (.invalidState
        "Cannot pause session - currently in idle state")) ∧
    ∀ e ∈ (applyOp (initState 3) (.opStart "math" "" (.ok 1) true) 1).observer_log,
      e ∈ (initState 3).observer_log ∨ allowedTransition e := by
  refine ⟨by decide, ?_, (c1_legal_transitions_and_guards (initState 3) 1).1
    (.opStart "math" "" (.ok 1) true)⟩
  exact (c1_legal_transitions_and_guards (initState 3) 1).2.2.1 "manual" true
    (by decide)

/-! ## Claim C9 -/

/-- Claim C9 (implicit): in every state reachable by any sequence of the
public operations (including sequences in which an operation raises),
`session_state` is Idle exactly when `current_session` is `None`, and
consequently `get_current_status` returns the all-zero inactive snapshot
exactly when the machine is logically Idle. -/
theorem c9_idle_iff_no_session {s : SMState} {t : ℚ} (h : Reachable s t) :
    (s.session_state = .idle ↔ s.current_session = none) ∧
    ∀ now : ℚ, ((get_current_status s now).2 = inactiveSnapshot ↔
      s.session_state = .idle) := by
  have hinv := reachable_inv h
  refine ⟨hinv.state_session, fun now => ?_⟩
  constructor
  · intro hsnap
    by_contra hni
    have hsome : s.current_session.isSome = true := by
      cases hc : s.current_session with
      | none => exact absurd (hinv.state_session.mpr hc) hni
      | some _ => rfl
    have hg : ¬ (¬ s.current_session.isSome ∨ s.session_state = .idle) := by
      push_neg; exact ⟨hsome, hni⟩
    have hact : (get_current_status s now).2.active = true := by
      simp only [get_current_status]; rw [if_neg hg]
    rw [hsnap] at hact
    simp [inactiveSnapshot] at hact
  · intro hid
    have hg : ¬ s.current_session.isSome ∨ s.session_state = .idle := .inr hid
    simp only [get_current_status]; rw [if_pos hg]

/-- Witness for C9: the invariant and the status equivalence hold in the
freshly constructed manager. -/
theorem c9_witness :
    ((initState 3).session_state = .idle ↔ (initState 3).current_session = none) ∧
    ∀ now : ℚ, ((get_current_status (initState 3) now).2 = inactiveSnapshot ↔
      (initState 3).session_state = .idle) :=
  c9_idle_iff_no_session (Reachable.init 3 (by norm_num))

/-! ## Claim C6 -/

/-- Claim C6: `update_session_idle_state(is_idle, t)` is a no-op whenever
the machine is not Active; when Active (in any reachable state), a
`true` call opens an idle span at `t` only if none is open, a `false`
call closes an open span, adding `t` minus its start to `idle_seconds`,
and in all cases the last-activity clock is advanced to `t`. -/
theorem c6_update_idle_state {s : SMState} {t : ℚ} (h : Reachable s t)
    (ts : ℚ) :
    (s.session_state ≠ .active → ∀ b, update_session_idle_state s b ts = s) ∧
    (s.session_state = .active →
      (s.idle_start_time = none →
        update_session_idle_state s true ts =
          { s with idle_start_time := some ts, last_activity_time := some ts }) ∧
      (∀ x, s.idle_start_time = some x →
        update_session_idle_state s true ts =
          { s with last_activity_time := some ts }) ∧
      (∀ x, s.idle_start_time = some x →
        update_session_idle_state s false ts =
          { s with
              total_idle_time := s.total_idle_time + (ts - x)
              idle_start_time := none
              last_activity_time := some ts }) ∧
      (s.idle_start_time = none →
        update_session_idle_state s false ts =
          { s with last_activity_time := some ts })) := by
  have hinv := reachable_inv h
  constructor
  · intro hna b
    have hg : ¬ s.current_session.isSome ∨ s.session_state ≠ .active := .inr hna
    simp only [update_session_idle_state]; rw [if_pos hg]
  · intro ha
    have hsome : s.current_session.isSome = true := by
      cases hc : s.current_session with
      | none =>
        exact absurd (hinv.state_session.mpr hc)
          (by rw [ha]; exact fun hc2 => SessionState.noConfusion hc2)
      | some _ => rfl
    have hg : ¬ (¬ s.current_session.isSome ∨ s.session_state ≠ .active) := by
      push_neg; exact ⟨hsome, ha⟩
    refine ⟨?_, ?_, ?_, ?_⟩
    · intro hnone
      have hti : ¬ truthyTime s.idle_start_time = true := by
        rw [hnone]; simp [truthyTime]
      simp only [update_session_idle_state]
      rw [if_neg hg, if_pos hti]; rfl
    · intro x hx
      have hti : truthyTime s.idle_start_time = true := by
        rw [hx]; exact truthyTime_of_pos (hinv.idlestart_bound x hx).1
      simp only [update_session_idle_state]
      rw [if_neg hg, if_neg (not_not_intro hti)]; rfl
    · intro x hx
      have hti : truthyTime s.idle_start_time = true := by
        rw [hx]; exact truthyTime_of_pos (hinv.idlestart_bound x hx).1
      have heq : update_session_idle_state s false ts =
          { s with
              total_idle_time :=
                s.total_idle_time + (ts - s.idle_start_time.getD 0)
              idle_start_time := none
              last_activity_time := some ts } := by
        simp only [update_session_idle_state]
        rw [if_neg hg, if_pos hti]; rfl
      rw [heq, show s.idle_start_time.getD 0 = x from by rw [hx]; rfl]
    · intro hnone
      have hti : ¬ truthyTime s.idle_start_time = true := by
        rw [hnone]; simp [truthyTime]
      simp only [update_session_idle_state]
      rw [if_neg hg, if_neg hti]; rfl

/-- Witness for C6: in the reachable Active state right after a successful
start at time 1, an idle notification at time 2 opens the span at 2 and
advances the last-activity clock to 2. -/
theorem c6_witness :
    update_session_idle_state
        (applyOp (initState 3) (.opStart "math" "" (.ok 1) true) 1) true 2 =
      { applyOp (initState 3) (.opStart "math" "" (.ok 1) true) 1 with
          idle_start_time := some 2
          last_activity_time := some 2 } := by
  have hr : Reachable (applyOp (initState 3) (.opStart "math" "" (.ok 1) true) 1) 1 :=
    Reachable.step (.opStart "math" "" (.ok 1) true) 1
      (Reachable.init 3 (by norm_num)) (by norm_num) (by norm_num) trivial
  exact ((c6_update_idle_state hr 2).2 (by decide)).1 (by decide)

/-! ## Claim C2 -/

theorem gss_sum_mono (s : SMState) (now : ℚ) (h0 : 0 ≤ now)
    (hlast : ∀ l, s.last_activity_time = some l → l ≤ now)
    (hidle : ∀ x, s.idle_start_time = some x → x ≤ now) :
    s.total_active_time + s.total_idle_time ≤
      (get_session_stats s now).1.total_active_time +
      (get_session_stats s now).1.total_idle_time := by
  by_cases hts : truthyTime s.session_start_time
  · have heq : (get_session_stats s now).1 = update_time_tracking s now := by
      simp only [get_session_stats]; rw [if_pos hts]
    rw [heq]; exact utt_sum_mono s now h0 hlast hidle
  · have heq : (get_session_stats s now).1 = s := by
      simp only [get_session_stats]; rw [if_neg hts]
    rw [heq]

/-- Counterexample to claim C2 as stated: start a session at time 1 and
stop it at time 101 with no intervening call.  The single reconciliation
of the whole session (inside `stop_session`) merely opens an idle span at
time 4 and never flushes it, so the accumulators at stop are both 0 and
the returned summary reports zero minutes and zero productivity, although
100 seconds of wall-clock time elapsed — an error of 100 seconds against
the claimed bound of at most 1 second per reconciliation call. -/
theorem c2_counterexample :
    (update_time_tracking
        (applyOp (initState 3) (.opStart "math" "" (.ok 1) true) 1) 101).total_active_time +
      (update_time_tracking
        (applyOp (initState 3) (.opStart "math" "" (.ok 1) true) 1) 101).total_idle_time = 0 ∧
    (stop_session (applyOp (initState 3) (.opStart "math" "" (.ok 1) true) 1)
        true "" 101 true true).2 =
      .ok { session_id := 1, topic := "math", total_minutes := 0
            active_minutes := 0, idle_minutes := 0, productivity := 0
            productivity_level := "none", success := true } ∧
    (1 : ℚ) < 101 - 1 := by
  refine ⟨?_, ?_, by norm_num⟩
  · norm_num [applyOp, start_session, initState, transition_state,
      truthyTime, update_time_tracking, cleanup_session]
  · norm_num [applyOp, start_session, initState, transition_state,
      truthyTime, update_time_tracking, cleanup_session, stop_session,
      calculate_final_productivity, get_session_stats, pyInt, round1]

/-- Amended claim C2: the first half of the claim holds — across every
operation whose post-state still has a live session (state not reset to
logical Idle), `total_active_time + total_idle_time` is monotonically
non-decreasing.  The second half is refuted by `c2_counterexample`: the
sum reported at stop can understate the wall-clock elapsed time by far
more than 1 second per reconciliation call, because an idle span that is
still open at stop is never added to `total_idle_time`. -/
theorem c2_sum_monotone {s : SMState} {t : ℚ} (h : Reachable s t)
    (op : SMOp) (now : ℚ) (h1 : t ≤ now) (h2 : 0 < now) (h3 : opTimeOK op now)
    (h4 : (applyOp s op now).session_state ≠ .idle) :
    s.total_active_time + s.total_idle_time ≤
      (applyOp s op now).total_active_time +
      (applyOp s op now).total_idle_time := by
  have hinv := reachable_inv h
  have h0n : (0:ℚ) ≤ now := le_of_lt h2
  have hlast : ∀ l, s.last_activity_time = some l → l ≤ now := by
    intro l hl
    by_cases hs0 : s.session_state = .idle
    · rw [(hinv.idle_zero hs0).2.1] at hl; exact Option.noConfusion hl
    · obtain ⟨l0, hl0, -, hl0t⟩ := hinv.nonidle_last hs0
      rw [hl0] at hl
      exact (Option.some_inj.mp hl) ▸ (le_trans hl0t h1)
  have hidle : ∀ x, s.idle_start_time = some x → x ≤ now :=
    fun x hx => le_trans (hinv.idlestart_bound x hx).2 h1
  by_cases hs0 : s.session_state = .idle
  · have hz := hinv.idle_zero hs0
    have hpost := applyOp_inv hinv op now h1 h2 h3
    rw [hz.2.2.2.1, hz.2.2.2.2]
    have hA := hpost.active_nonneg
    have hI := hpost.idle_nonneg
    linarith
  · cases op with
    | opStart topic d cr lo =>
      have heq : applyOp s (.opStart topic d cr lo) now = s := by
        show (start_session s topic d now cr lo).1 = s
        rw [start_guard s topic d now cr lo hs0]
      rw [heq]
    | opPause r lo =>
      by_cases hs : s.session_state = .active
      · have hng : ¬ s.session_state ≠ .active := not_not_intro hs
        have hm1 := utt_sum_mono s now h0n hlast hidle
        have hs3last : ∀ l,
            ((transition_state
              { update_time_tracking s now with idle_start_time := some now }
              now .paused r).1).last_activity_time = some l → l ≤ now := by
          intro l hl
          have hll : (update_time_tracking s now).last_activity_time = some l := hl
          rw [(utt_preserves s now).2.2.2.1] at hll
          exact hlast l hll
        have hs3idle : ∀ x,
            ((transition_state
              { update_time_tracking s now with idle_start_time := some now }
              now .paused r).1).idle_start_time = some x → x ≤ now := by
          intro x hx
          have hxx : some now = some x := hx
          exact (Option.some_inj.mp hxx) ▸ le_refl now
        have hsum3 : ((transition_state
              { update_time_tracking s now with idle_start_time := some now }
              now .paused r).1).total_active_time +
            ((transition_state
              { update_time_tracking s now with idle_start_time := some now }
              now .paused r).1).total_idle_time =
            (update_time_tracking s now).total_active_time +
            (update_time_tracking s now).total_idle_time := rfl
        cases lo with
        | true =>
          have heq : applyOp s (.opPause r true) now =
              (get_session_stats (transition_state
                { update_time_tracking s now with idle_start_time := some now }
                now .paused r).1 now).1 := by
            show (pause_session s r now true).1 = _
            simp only [pause_session]; rw [if_neg hng]; rfl
          rw [heq]
          have hm2 := gss_sum_mono _ now h0n hs3last hs3idle
          rw [hsum3] at hm2
          linarith
        | false =>
          have heq : applyOp s (.opPause r false) now =
              (transition_state
                { update_time_tracking s now with idle_start_time := some now }
                now .paused r).1 := by
            show (pause_session s r now false).1 = _
            simp only [pause_session]; rw [if_neg hng]; rfl
          rw [heq, hsum3]
          exact hm1
      · have heq : applyOp s (.opPause r lo) now = s := by
          show (pause_session s r now lo).1 = s
          rw [pause_guard s r now lo hs]
        rw [heq]
    | opResume lo =>
      by_cases hs : s.session_state = .paused
      · have hng : ¬ s.session_state ≠ .paused := not_not_intro hs
        by_cases hti : truthyTime s.idle_start_time = true
        · obtain ⟨x, hx, -⟩ := (truthyTime_iff _).mp hti
          have hxle : x ≤ now := hidle x hx
          have hgx : s.idle_start_time.getD 0 = x := by rw [hx]; rfl
          have hsumT : ((transition_state
                { s with
                    total_idle_time :=
                      s.total_idle_time + (now - s.idle_start_time.getD 0)
                    idle_start_time := none
                    last_activity_time := some now }
                now .active "Session resumed").1).total_active_time +
              ((transition_state
                { s with
                    total_idle_time :=
                      s.total_idle_time + (now - s.idle_start_time.getD 0)
                    idle_start_time := none
                    last_activity_time := some now }
                now .active "Session resumed").1).total_idle_time =
              s.total_active_time +
                (s.total_idle_time + (now - s.idle_start_time.getD 0)) := rfl
          have hTlast : ∀ l, ((transition_state
                { s with
                    total_idle_time :=
                      s.total_idle_time + (now - s.idle_start_time.getD 0)
                    idle_start_time := none
                    last_activity_time := some now }
                now .active "Session resumed").1).last_activity_time = some l →
              l ≤ now := by
            intro l hl
            have hll : some now = some l := hl
            exact (Option.some_inj.mp hll) ▸ le_refl now
          have hTidle : ∀ y, ((transition_state
                { s with
                    total_idle_time :=
                      s.total_idle_time + (now - s.idle_start_time.getD 0)
                    idle_start_time := none
                    last_activity_time := some now }
                now .active "Session resumed").1).idle_start_time = some y →
              y ≤ now := by
            intro y hy
            exact Option.noConfusion hy
          cases lo with
          | true =>
            have heq : applyOp s (.opResume true) now =
                (get_session_stats (transition_state
                  { s with
                      total_idle_time :=
                        s.total_idle_time + (now - s.idle_start_time.getD 0)
                      idle_start_time := none
                      last_activity_time := some now }
                  now .active "Session resumed").1 now).1 := by
              show (resume_session s now true).1 = _
              simp only [resume_session]; rw [if_neg hng, if_pos hti]; rfl
            rw [heq]
            have hm2 := gss_sum_mono _ now h0n hTlast hTidle
            have hnn : 0 ≤ now - s.idle_start_time.getD 0 := by
              rw [hgx]; linarith
            rw [hsumT] at hm2
            linarith
          | false =>
            have heq : applyOp s (.opResume false) now =
                (transition_state
                  { s with
                      total_idle_time :=
                        s.total_idle_time + (now - s.idle_start_time.getD 0)
                      idle_start_time := none
                      last_activity_time := some now }
                  now .active "Session resumed").1 := by
              show (resume_session s now false).1 = _
              simp only [resume_session]; rw [if_neg hng, if_pos hti]; rfl
            rw [heq, hsumT, hgx]
            linarith
        · have hsumT : ((transition_state
                { s with last_activity_time := some now }
                now .active "Session resumed").1).total_active_time +
              ((transition_state
                { s with last_activity_time := some now }
                now .active "Session resumed").1).total_idle_time =
              s.total_active_time + s.total_idle_time := rfl
          have hTlast : ∀ l, ((transition_state
                { s with last_activity_time := some now }
                now .active "Session resumed").1).last_activity_time = some l →
              l ≤ now := by
            intro l hl
            have hll : some now = some l := hl
            exact (Option.some_inj.mp hll) ▸ le_refl now
          have hTidle : ∀ y, ((transition_state
                { s with last_activity_time := some now }
                now .active "Session resumed").1).idle_start_time = some y →
              y ≤ now := by
            intro y hy
            exact hidle y hy
          cases lo with
          | true =>
            have heq : applyOp s (.opResume true) now =
                (get_session_stats (transition_state
                  { s with last_activity_time := some now }
                  now .active "Session resumed").1 now).1 := by
              show (resume_session s now true).1 = _
              simp only [resume_session]; rw [if_neg hng, if_neg hti]; rfl
            rw [heq]
            have hm2 := gss_sum_mono _ now h0n hTlast hTidle
            rw [hsumT] at hm2
            exact hm2
          | false =>
            have heq : applyOp s (.opResume false) now =
                (transition_state
                  { s with last_activity_time := some now }
                  now .active "Session resumed").1 := by
              show (resume_session s now false).1 = _
              simp only [resume_session]; rw [if_neg hng, if_neg hti]; rfl
            rw [heq, hsumT]
      · have heq : applyOp s (.opResume lo) now = s := by
          show (resume_session s now lo).1 = s
          rw [resume_guard s now lo hs]
        rw [heq]
    | opStop su n uo lo =>
      by_cases hs : s.session_state = .active ∨ s.session_state = .paused
      · exfalso
        apply h4
        have hng : ¬ ¬ (s.session_state = .active ∨ s.session_state = .paused) :=
          not_not_intro hs
        show (stop_session s su n now uo lo).1.session_state = .idle
        cases uo with
        | false =>
          have heq : (stop_session s su n now false lo).1 =
              cleanup_session (update_time_tracking s now) := by
            simp only [stop_session]; rw [if_neg hng]; rfl
          rw [heq]; rfl
        | true =>
          cases lo with
          | false =>
            have heq : (stop_session s su n now true false).1 =
                cleanup_session (transition_state (update_time_tracking s now) now
                  .completed ("Session completed: " ++ n)).1 := by
              simp only [stop_session]; rw [if_neg hng]; rfl
            rw [heq]; rfl
          | true =>
            have heq : (stop_session s su n now true true).1 =
                cleanup_session (transition_state (update_time_tracking s now) now
                  .completed ("Session completed: " ++ n)).1 := by
              simp only [stop_session]; rw [if_neg hng]; rfl
            rw [heq]; rfl
      · have heq : applyOp s (.opStop su n uo lo) now = s := by
          show (stop_session s su n now uo lo).1 = s
          rw [stop_guard s su n now uo lo hs]
        rw [heq]
    | opStatus =>
      by_cases hg : ¬ s.current_session.isSome ∨ s.session_state = .idle
      · have heq : applyOp s .opStatus now = s := by
          show (get_current_status s now).1 = s
          simp only [get_current_status]; rw [if_pos hg]
        rw [heq]
      · have heq : applyOp s .opStatus now = update_time_tracking s now := by
          show (get_current_status s now).1 = _
          simp only [get_current_status]; rw [if_neg hg]
        rw [heq]
        exact utt_sum_mono s now h0n hlast hidle
    | opActivity ts =>
      by_cases hg : ¬ s.current_session.isSome ∨ s.session_state ≠ .active
      · have heq : applyOp s (.opActivity ts) now = s := by
          show update_session_activity s ts now = s
          simp only [update_session_activity]; rw [if_pos hg]
        rw [heq]
      · have heq : applyOp s (.opActivity ts) now =
            { s with last_activity_time := some (ts.getD now) } := by
          show update_session_activity s ts now = _
          simp only [update_session_activity]; rw [if_neg hg]
        rw [heq]
    | opIdle b =>
      by_cases hg : ¬ s.current_session.isSome ∨ s.session_state ≠ .active
      · have heq : applyOp s (.opIdle b) now = s := by
          show update_session_idle_state s b now = s
          simp only [update_session_idle_state]; rw [if_pos hg]
        rw [heq]
      · cases b with
        | true =>
          by_cases hti : truthyTime s.idle_start_time = true
          · have heq : applyOp s (.opIdle true) now =
                { s with last_activity_time := some now } := by
              show update_session_idle_state s true now = _
              simp only [update_session_idle_state]
              rw [if_neg hg, if_neg (not_not_intro hti)]; rfl
            rw [heq]
          · have heq : applyOp s (.opIdle true) now =
                { s with
                    idle_start_time := some now
                    last_activity_time := some now } := by
              show update_session_idle_state s true now = _
              simp only [update_session_idle_state]
              rw [if_neg hg, if_pos hti]; rfl
            rw [heq]
        | false =>
          by_cases hti : truthyTime s.idle_start_time = true
          · obtain ⟨x, hx, -⟩ := (truthyTime_iff _).mp hti
            have hgx : s.idle_start_time.getD 0 = x := by rw [hx]; rfl
            have hxle : x ≤ now := hidle x hx
            have heq : applyOp s (.opIdle false) now =
                { s with
                    total_idle_time :=
                      s.total_idle_time + (now - s.idle_start_time.getD 0)
                    idle_start_time := none
                    last_activity_time := some now } := by
              show update_session_idle_state s false now = _
              simp only [update_session_idle_state]
              rw [if_neg hg, if_pos hti]; rfl
            rw [heq]
            show s.total_active_time + s.total_idle_time ≤
              s.total_active_time +
                (s.total_idle_time + (now - s.idle_start_time.getD 0))
            rw [hgx]
            linarith
          · have heq : applyOp s (.opIdle false) now =
                { s with last_activity_time := some now } := by
              show update_session_idle_state s false now = _
              simp only [update_session_idle_state]
              rw [if_neg hg, if_neg hti]; rfl
            rw [heq]

/-- Witness for the amended C2: a concrete monotone step — polling status
at time 2 on the session started at time 1 leaves the session live and
does not decrease the accumulator sum. -/
theorem c2_witness :
    (applyOp (applyOp (initState 3) (.opStart "math" "" (.ok 1) true) 1)
        .opStatus 2).session_state ≠ SessionState.idle ∧
    (applyOp (initState 3) (.opStart "math" "" (.ok 1) true) 1).total_active_time +
      (applyOp (initState 3) (.opStart "math" "" (.ok 1) true) 1).total_idle_time ≤
    (applyOp (applyOp (initState 3) (.opStart "math" "" (.ok 1) true) 1)
        .opStatus 2).total_active_time +
      (applyOp (applyOp (initState 3) (.opStart "math" "" (.ok 1) true) 1)
        .opStatus 2).total_idle_time := by
  have hr : Reachable (applyOp (initState 3) (.opStart "math" "" (.ok 1) true) 1) 1 :=
    Reachable.step (.opStart "math" "" (.ok 1) true) 1
      (Reachable.init 3 (by norm_num)) (by norm_num) (by norm_num) trivial
  have hne : (applyOp (applyOp (initState 3) (.opStart "math" "" (.ok 1) true) 1)
      .opStatus 2).session_state ≠ SessionState.idle := by
    norm_num [applyOp, get_current_status, update_time_tracking, start_session,
      initState, transition_state, truthyTime]
    decide
  exact ⟨hne, c2_sum_monotone hr .opStatus 2 (by norm_num) (by norm_num) trivial hne⟩

/-! ## Claim C3 -/

/-- A concrete Active manager state: exactly the state produced by a
successful `start_session("math")` at wall-clock time 1 on a fresh
manager with idle threshold 3 (see `sampleActive_eq`). -/
def sampleActive : SMState where
  current_session := some
    { id := 1, topic := "math", description := "", start_timestamp := 1 }
  session_state := .active
  session_start_time := some 1
  last_activity_time := some 1
  idle_start_time := none
  total_active_time := 0
  total_idle_time := 0
  state_history := [{ timestamp := 1, from_state := .idle, to_state := .active
                      reason := "Session started", session_time := 0 }]
  idle_threshold := 3
  observer_log := [{ timestamp := 1, from_state := .idle, to_state := .active
                     reason := "Session started", session_time := 0 }]

theorem sampleActive_eq :
    applyOp (initState 3) (.opStart "math" "" (.ok 1) true) 1 = sampleActive := by
  norm_num [applyOp, start_session, initState, transition_state, truthyTime,
    sampleActive]

theorem sampleActive_reachable : Reachable sampleActive 1 :=
  sampleActive_eq ▸ (Reachable.step (.opStart "math" "" (.ok 1) true) 1
    (Reachable.init 3 (by norm_num)) (by norm_num) (by norm_num) trivial)

/-- Claim C3 as stated, reading "exceeds" as a strict inequality: on a
reconciliation call in an Active state, if `now - last_activity_time` is
strictly greater than the idle threshold nothing is added to
`active_seconds` (and an idle span is opened lazily at
`last_activity_time + idle_threshold` if none is open); otherwise
`active_seconds` grows by exactly `min (now - last_activity_time) 1`. -/
def specClaimC3 (s : SMState) (now : ℚ) : Prop :=
  s.session_state = .active →
  truthyTime s.session_start_time = true →
  ∀ l, s.last_activity_time = some l →
    (s.idle_threshold < now - l →
      (update_time_tracking s now).total_active_time = s.total_active_time ∧
      (s.idle_start_time = none →
        (update_time_tracking s now).idle_start_time =
          some (l + s.idle_threshold))) ∧
    (¬ s.idle_threshold < now - l →
      (update_time_tracking s now).total_active_time =
        s.total_active_time + min (now - l) 1)

/-- Counterexample to claim C3 as stated: at the boundary
`now - last_activity_time = idle_threshold` (state `sampleActive`,
threshold 3, last activity at 1, reconciliation at 4), the code takes the
idle branch (its test is `>=`), adding nothing to `active_seconds`,
whereas the claim's "otherwise" branch would add `min 3 1 = 1`. -/
theorem c3_counterexample : ¬ specClaimC3 sampleActive 4 := by
  intro hcl
  have h := (hcl rfl (by decide) 1 rfl).2 (by norm_num [sampleActive])
  norm_num [update_time_tracking, truthyTime, sampleActive] at h

/-- Amended claim C3: as the claim, but the idle branch is taken exactly
when `now - last_activity_time` is greater than OR EQUAL to the idle
threshold (the code tests `>=`).  On the idle branch neither accumulator
changes and an idle span is opened lazily at
`last_activity_time + idle_threshold` if none is open (the call is a
complete no-op when a span is already open); on the active branch
`active_seconds` grows by exactly `min (now - last_activity_time) 1`; in
all cases a single reconciliation adds at most 1 second of active time. -/
theorem c3_reconciliation (s : SMState) (now : ℚ)
    (ha : s.session_state = .active)
    (hts : truthyTime s.session_start_time = true)
    (l : ℚ) (hl : s.last_activity_time = some l) :
    (s.idle_threshold ≤ now - l →
      (update_time_tracking s now).total_active_time = s.total_active_time ∧
      (update_time_tracking s now).total_idle_time = s.total_idle_time ∧
      (s.idle_start_time = none →
        (update_time_tracking s now).idle_start_time =
          some (l + s.idle_threshold)) ∧
      (s.idle_start_time ≠ none → update_time_tracking s now = s)) ∧
    (now - l < s.idle_threshold →
      (update_time_tracking s now).total_active_time =
        s.total_active_time + min (now - l) 1) ∧
    (update_time_tracking s now).total_active_time ≤ s.total_active_time + 1 := by
  have hgl : s.last_activity_time.getD 0 = l := by rw [hl]; rfl
  refine ⟨?_, ?_, ?_⟩
  · intro hge
    have hcond : s.idle_threshold ≤ now - s.last_activity_time.getD 0 := by
      rw [hgl]; exact hge
    by_cases hin : s.idle_start_time = none
    · have heq : update_time_tracking s now =
          { s with idle_start_time := some (s.last_activity_time.getD 0 + s.idle_threshold) } := by
        simp only [update_time_tracking]
        rw [if_pos hts, if_pos ha, if_pos hcond, if_pos hin]
      rw [heq]
      exact ⟨rfl, rfl, fun _ => by rw [hgl], fun hne => absurd hin hne⟩
    · have heq : update_time_tracking s now = s := by
        simp only [update_time_tracking]
        rw [if_pos hts, if_pos ha, if_pos hcond, if_neg hin]
      rw [heq]
      exact ⟨rfl, rfl, fun hnone => absurd hnone hin, fun _ => rfl⟩
  · intro hlt
    have hcond : ¬ s.idle_threshold ≤ now - s.last_activity_time.getD 0 := by
      rw [hgl]; linarith
    by_cases hti : truthyTime s.idle_start_time = true
    · have heq : (update_time_tracking s now).total_active_time =
          s.total_active_time + min (now - s.last_activity_time.getD 0) 1 := by
        simp only [update_time_tracking]
        rw [if_pos hts, if_pos ha, if_neg hcond, if_pos hti]
      rw [heq, hgl]
    · have heq : (update_time_tracking s now).total_active_time =
          s.total_active_time + min (now - s.last_activity_time.getD 0) 1 := by
        simp only [update_time_tracking]
        rw [if_pos hts, if_pos ha, if_neg hcond, if_neg hti]
      rw [heq, hgl]
  · have hm : min (now - s.last_activity_time.getD 0) 1 ≤ 1 :=
      min_le_right _ _
    rcases utt_cases s now with heq | ⟨-, -, -, heq⟩ | ⟨-, -, -, heq⟩ |
      ⟨-, -, -, heq⟩ | ⟨-, -, heq⟩ <;> rw [heq]
    · linarith
    · show s.total_active_time ≤ s.total_active_time + 1
      linarith
    · show s.total_active_time + min (now - s.last_activity_time.getD 0) 1 ≤
        s.total_active_time + 1
      linarith
    · show s.total_active_time + min (now - s.last_activity_time.getD 0) 1 ≤
        s.total_active_time + 1
      linarith
    · show s.total_active_time ≤ s.total_active_time + 1
      linarith

/-- Witness for the amended C3: at `sampleActive` the boundary
reconciliation at time 4 adds nothing to active time and opens the idle
span at `1 + 3 = 4`. -/
theorem c3_witness :
    (update_time_tracking sampleActive 4).total_active_time =
      sampleActive.total_active_time ∧
    (update_time_tracking sampleActive 4).idle_start_time = some (1 + 3) := by
  have h := (c3_reconciliation sampleActive 4 rfl (by decide) 1 rfl).1
    (by norm_num [sampleActive])
  exact ⟨h.1, h.2.2.1 rfl⟩

/-! ## Claim C4 -/

/-- Counterexample to claim C4: from the Active state `sampleActive`, a
`pause_session` whose persistence write fails raises, yet the machine is
left in the Paused state with the transition recorded — not "exactly what
it was before the call". -/
theorem c4_counterexample :
    (pause_session sampleActive "manual" 2 false).2 =
      .error (.persistence "log_activity_event failed") ∧
    (pause_session sampleActive "manual" 2 false).1.session_state =
      SessionState.paused ∧
    sampleActive.session_state = SessionState.active ∧
    (pause_session sampleActive "manual" 2 false).1 ≠ sampleActive := by
  have hstate : (pause_session sampleActive "manual" 2 false).1.session_state =
      SessionState.paused := by
    norm_num [pause_session, sampleActive, update_time_tracking, truthyTime,
      transition_state]
  refine ⟨?_, hstate, rfl, fun hcon => ?_⟩
  · norm_num [pause_session, sampleActive, update_time_tracking, truthyTime,
      transition_state]
  · rw [hcon] at hstate
    exact absurd hstate (by decide)

/-- Amended claim C4: only the invalid-state guard failures leave the
manager exactly as it was.  A persistence failure during `pause_session`
or `resume_session` propagates after the transition and accumulator
updates were already made (the machine is left Paused, respectively
Active), and any persistence failure inside `stop_session` — whether in
`update_session` or in `log_activity_event` — runs `_cleanup_session`,
leaving the manager Idle with no current session and zeroed accumulators
instead of restoring the pre-call state. -/
theorem c4_failure_semantics (s : SMState) (now : ℚ) :
    (∀ r lo, s.session_state ≠ .active → (pause_session s r now lo).1 = s) ∧
    (∀ lo, s.session_state ≠ .paused → (resume_session s now lo).1 = s) ∧
    (∀ su n uo lo, ¬ (s.session_state = .active ∨ s.session_state = .paused) →
      (stop_session s su n now uo lo).1 = s) ∧
    (∀ r, s.session_state = .active →
      (pause_session s r now false).1.session_state = .paused ∧
      (pause_session s r now false).2 =
        .error (.persistence "log_activity_event failed")) ∧
    (s.session_state = .paused →
      (resume_session s now false).1.session_state = .active ∧
      (resume_session s now false).2 =
        .error (.persistence "log_activity_event failed")) ∧
    (∀ su n uo lo, (s.session_state = .active ∨ s.session_state = .paused) →
      (uo = false ∨ lo = false) →
      (∃ msg, (stop_session s su n now uo lo).2 =
        .error (.persistence msg)) ∧
      (stop_session s su n now uo lo).1.session_state = .idle ∧
      (stop_session s su n now uo lo).1.current_session = none ∧
      (stop_session s su n now uo lo).1.total_active_time = 0 ∧
      (stop_session s su n now uo lo).1.total_idle_time = 0) := by
  refine ⟨?_, ?_, ?_, ?_, ?_, ?_⟩
  · intro r lo hs
    rw [pause_guard s r now lo hs]
  · intro lo hs
    rw [resume_guard s now lo hs]
  · intro su n uo lo hs
    rw [stop_guard s su n now uo lo hs]
  · intro r hs
    have hng : ¬ s.session_state ≠ .active := not_not_intro hs
    have heq : (pause_session s r now false) =
        ((transition_state
          { update_time_tracking s now with idle_start_time := some now }
          now .paused r).1,
         .error (.persistence "log_activity_event failed")) := by
      simp only [pause_session]; rw [if_neg hng]; rfl
    rw [heq]
    exact ⟨rfl, rfl⟩
  · intro hs
    have hng : ¬ s.session_state ≠ .paused := not_not_intro hs
    by_cases hti : truthyTime s.idle_start_time = true
    · have heq : (resume_session s now false) =
          ((transition_state
            { s with
                total_idle_time :=
                  s.total_idle_time + (now - s.idle_start_time.getD 0)
                idle_start_time := none
                last_activity_time := some now }
            now .active "Session resumed").1,
           .error (.persistence "log_activity_event failed")) := by
        simp only [resume_session]; rw [if_neg hng, if_pos hti]; rfl
      rw [heq]
      exact ⟨rfl, rfl⟩
    · have heq : (resume_session s now false) =
          ((transition_state
            { s with last_activity_time := some now }
            now .active "Session resumed").1,
           .error (.persistence "log_activity_event failed")) := by
        simp only [resume_session]; rw [if_neg hng, if_neg hti]; rfl
      rw [heq]
      exact ⟨rfl, rfl⟩
  · intro su n uo lo hs hfail
    have hng : ¬ ¬ (s.session_state = .active ∨ s.session_state = .paused) :=
      not_not_intro hs
    cases uo with
    | false =>
      have heq : stop_session s su n now false lo =
          (cleanup_session (update_time_tracking s now),
           .error (.persistence "update_session failed")) := by
        simp only [stop_session]; rw [if_neg hng]; rfl
      rw [heq]
      exact ⟨⟨"update_session failed", rfl⟩, rfl, rfl, rfl, rfl⟩
    | true =>
      cases lo with
      | true =>
        rcases hfail with h | h <;> exact Bool.noConfusion h
      | false =>
        have heq : stop_session s su n now true false =
            (cleanup_session (transition_state (update_time_tracking s now) now
              .completed ("Session completed: " ++ n)).1,
             .error (.persistence "log_activity_event failed")) := by
          simp only [stop_session]; rw [if_neg hng]; rfl
        rw [heq]
        exact ⟨⟨"log_activity_event failed", rfl⟩, rfl, rfl, rfl, rfl⟩

/-- Witness for the amended C4: resuming on a fresh (Idle) manager is
rejected with the manager unchanged; a resume from a Paused state whose
persistence write fails still leaves the machine Active; and a stop from
`sampleActive` whose `log_activity_event` write fails (persistence write
succeeded) resets the manager to Idle. -/
theorem c4_witness :
    (resume_session (initState 3) 1 true).1 = initState 3 ∧
    (resume_session { sampleActive with session_state := SessionState.paused }
      2 false).1.session_state = SessionState.active ∧
    (stop_session sampleActive true "" 2 true false).1.session_state =
      SessionState.idle := by
  refine ⟨(c4_failure_semantics (initState 3) 1).2.1 true (by decide), ?_, ?_⟩
  · exact ((c4_failure_semantics
      { sampleActive with session_state := SessionState.paused } 2).2.2.2.2.1
        rfl).1
  · exact ((c4_failure_semantics sampleActive 2).2.2.2.2.2 true "" true false
      (Or.inl rfl) (Or.inr rfl)).2.1

/-! ## Claim C5 -/

theorem sessionState_active_ne_idle :
    (SessionState.active = SessionState.idle) ↔ False :=
  iff_false_intro (by decide)

theorem round1_ge (q : ℚ) : q - 1/20 ≤ round1 q := by
  have hcast : (q * 10 + 1/2) - 1 < ((⌊q * 10 + 1/2⌋ : ℤ) : ℚ) :=
    Int.sub_one_lt_floor _
  unfold round1
  rw [round_eq, le_div_iff₀ (by norm_num : (0:ℚ) < 10)]
  linarith

theorem round1_bounds {q : ℚ} (h0 : 0 ≤ q) (h1 : q ≤ 100) :
    0 ≤ round1 q ∧ round1 q ≤ 100 := by
  have hl : (0:ℤ) ≤ round (q * 10) := by
    rw [round_eq, Int.le_floor]
    push_cast
    linarith
  have hu : round (q * 10) ≤ 1000 := by
    rw [round_eq]
    have hlt : ⌊q * 10 + 1/2⌋ < 1001 := by
      rw [Int.floor_lt]
      push_cast
      linarith
    omega
  constructor
  · exact div_nonneg (by exact_mod_cast hl) (by norm_num)
  · unfold round1
    rw [div_le_iff₀ (by norm_num : (0:ℚ) < 10)]
    calc ((round (q * 10) : ℤ) : ℚ) ≤ 1000 := by exact_mod_cast hu
      _ = 100 * 10 := by norm_num

/-- Claim C5's bounds clause as stated for the live computation: every
productivity value reported by `get_current_status` on a reachable state
lies in [0, 100]. -/
def specClaimC5 : Prop :=
  ∀ (s : SMState) (t : ℚ), Reachable s t → ∀ now : ℚ,
    0 ≤ ((get_current_status s now).2).productivity ∧
    ((get_current_status s now).2).productivity ≤ 100

/-- Counterexample to claim C5: start at time 1, poll status at time 1.5
(which adds 0.5 s of active time without advancing the last-activity
clock), then poll again at time 1.6.  The second poll adds another 0.6 s,
so `total_active_time = 1.1` while only 0.6 s of wall time elapsed since
start; `get_current_status` divides by elapsed wall time (not
active+idle) and does not clamp, reporting `round1 (550/3) = 183.3`,
outside [0, 100]. -/
theorem c5_counterexample : ¬ specClaimC5 := by
  intro hcl
  have hr2 : Reachable (applyOp (applyOp (initState 3)
      (.opStart "math" "" (.ok 1) true) 1) .opStatus (3/2)) (3/2) :=
    Reachable.step .opStatus (3/2)
      (Reachable.step (.opStart "math" "" (.ok 1) true) 1
        (Reachable.init 3 (by norm_num)) (by norm_num) (by norm_num) trivial)
      (by norm_num) (by norm_num) trivial
  have h := (hcl _ _ hr2 (8/5)).2
  have hg := round1_ge ((11:ℚ)/10 / (3/5) * 100)
  norm_num [applyOp, get_current_status, start_session, initState,
    transition_state, truthyTime, update_time_tracking, pyInt,
    sessionState_active_ne_idle] at h
  norm_num at hg
  linarith

theorem stop_ok_summary (s : SMState) (su : Bool) (n : String) (now : ℚ)
    (hs : s.session_state = .active ∨ s.session_state = .paused) :
    (stop_session s su n now true true).2 = .ok
      { session_id :=
          ((update_time_tracking s now).current_session.map Session.id).getD 0
        topic :=
          ((update_time_tracking s now).current_session.map Session.topic).getD ""
        total_minutes := Int.fdiv (pyInt
          ((update_time_tracking s now).total_active_time +
           (update_time_tracking s now).total_idle_time)) 60
        active_minutes :=
          Int.fdiv (pyInt (update_time_tracking s now).total_active_time) 60
        idle_minutes :=
          Int.fdiv (pyInt (update_time_tracking s now).total_idle_time) 60
        productivity :=
          (calculate_final_productivity (update_time_tracking s now) now).productivity
        productivity_level :=
          (calculate_final_productivity (update_time_tracking s now) now).level
        success := su } := by
  simp only [stop_session]; rw [if_neg (not_not_intro hs)]; rfl

/-- Amended claim C5: the final productivity computed by `stop_session`
equals `active/(active+idle) * 100` (on the post-reconciliation
accumulators) rounded to one decimal, lies in [0, 100] (no clamping is
needed: the accumulators of a reachable state are non-negative), and is
exactly 0 when `active + idle = 0` (explicit zero test, no division
error).  The claim's statement about `get_current_status` is refuted by
`c5_counterexample`: the live computation divides by elapsed wall time
since start, is not clamped, and can exceed 100. -/
theorem c5_final_productivity {s : SMState} {t : ℚ} (h : Reachable s t)
    (su : Bool) (n : String) (now : ℚ) (h1 : t ≤ now)
    (hs : s.session_state = .active ∨ s.session_state = .paused) :
    ∀ sm, (stop_session s su n now true true).2 = .ok sm →
      sm.productivity =
        (if (update_time_tracking s now).total_active_time +
            (update_time_tracking s now).total_idle_time = 0 then 0
         else round1 ((update_time_tracking s now).total_active_time /
            ((update_time_tracking s now).total_active_time +
             (update_time_tracking s now).total_idle_time) * 100)) ∧
      0 ≤ sm.productivity ∧ sm.productivity ≤ 100 ∧
      ((update_time_tracking s now).total_active_time +
        (update_time_tracking s now).total_idle_time = 0 →
        sm.productivity = 0) := by
  intro sm hsm
  rw [stop_ok_summary s su n now hs] at hsm
  have hsm' := (Except.ok.inj hsm).symm
  subst hsm'
  have hu : Inv (update_time_tracking s now) now :=
    utt_inv (reachable_inv h) h1
  have ha := hu.active_nonneg
  have hi := hu.idle_nonneg
  by_cases h0 : (update_time_tracking s now).total_active_time +
      (update_time_tracking s now).total_idle_time = 0
  · have heq : calculate_final_productivity (update_time_tracking s now) now =
        { productivity := 0, level := "none", efficiency := 0, focus_ratio := 0 } := by
      simp only [calculate_final_productivity]; rw [if_pos h0]
    have hp : (calculate_final_productivity
        (update_time_tracking s now) now).productivity = 0 := by
      rw [heq]
    refine ⟨?_, ?_, ?_, fun _ => hp⟩
    · show (calculate_final_productivity
        (update_time_tracking s now) now).productivity = _
      rw [hp, if_pos h0]
    · show (0:ℚ) ≤ (calculate_final_productivity
        (update_time_tracking s now) now).productivity
      rw [hp]
    · show (calculate_final_productivity
        (update_time_tracking s now) now).productivity ≤ 100
      rw [hp]; norm_num
  · have htpos : 0 < (update_time_tracking s now).total_active_time +
        (update_time_tracking s now).total_idle_time :=
      lt_of_le_of_ne (by linarith) (Ne.symm h0)
    have heq : (calculate_final_productivity (update_time_tracking s now) now).productivity =
        round1 ((update_time_tracking s now).total_active_time /
          ((update_time_tracking s now).total_active_time +
           (update_time_tracking s now).total_idle_time) * 100) := by
      simp only [calculate_final_productivity]; rw [if_neg h0]
    have hratio0 : 0 ≤ (update_time_tracking s now).total_active_time /
        ((update_time_tracking s now).total_active_time +
         (update_time_tracking s now).total_idle_time) * 100 := by
      apply mul_nonneg _ (by norm_num)
      exact div_nonneg ha (le_of_lt htpos)
    have hratio1 : (update_time_tracking s now).total_active_time /
        ((update_time_tracking s now).total_active_time +
         (update_time_tracking s now).total_idle_time) * 100 ≤ 100 := by
      have hr : (update_time_tracking s now).total_active_time /
          ((update_time_tracking s now).total_active_time +
           (update_time_tracking s now).total_idle_time) ≤ 1 := by
        rw [div_le_one htpos]
        linarith
      nlinarith
    obtain ⟨hb0, hb1⟩ := round1_bounds hratio0 hratio1
    refine ⟨?_, ?_, ?_, fun hc => absurd hc h0⟩
    · show (calculate_final_productivity (update_time_tracking s now) now).productivity = _
      rw [heq, if_neg h0]
    · show 0 ≤ (calculate_final_productivity (update_time_tracking s now) now).productivity
      rw [heq]; exact hb0
    · show (calculate_final_productivity (update_time_tracking s now) now).productivity ≤ 100
      rw [heq]; exact hb1

/-- Witness for the amended C5: stopping `sampleActive` immediately (zero
elapsed time, the spec's "start then immediately stop" scenario) reports
productivity exactly 0, within [0, 100], with no division error. -/
theorem c5_witness :
    (stop_session sampleActive true "" 1 true true).2 = .ok
      { session_id := 1, topic := "math", total_minutes := 0
        active_minutes := 0, idle_minutes := 0, productivity := 0
        productivity_level := "none", success := true } ∧
    (0:ℚ) ≤ (SessionSummary.productivity
      { session_id := 1, topic := "math", total_minutes := 0
        active_minutes := 0, idle_minutes := 0, productivity := 0
        productivity_level := "none", success := true }) ∧
    (SessionSummary.productivity
      { session_id := 1, topic := "math", total_minutes := 0
        active_minutes := 0, idle_minutes := 0, productivity := 0
        productivity_level := "none", success := true }) ≤ 100 := by
  have hok : (stop_session sampleActive true "" 1 true true).2 = .ok
      { session_id := 1, topic := "math", total_minutes := 0
        active_minutes := 0, idle_minutes := 0, productivity := 0
        productivity_level := "none", success := true } := by
    norm_num [stop_session, sampleActive, update_time_tracking, truthyTime,
      transition_state, cleanup_session, calculate_final_productivity,
      pyInt, round1]
  have hb := c5_final_productivity sampleActive_reachable true "" 1
    (le_refl 1) (Or.inl rfl) _ hok
  exact ⟨hok, hb.2.1, hb.2.2.1⟩

/-! ## Claim C7 -/

/-- Claim C7 as stated: when input-capture permission is denied,
`start_monitoring` returns false AND nevertheless enters timer-only
fallback mode with both background loops running. -/
def specClaimC7 : Prop :=
  ∀ (m : AMState) (sid : Nat) (now : ℚ) (lOk : Bool),
    m.permissions_ok = false →
    (start_monitoring m sid now lOk).2 = false ∧
    (start_monitoring m sid now lOk).1.fallback_mode = true ∧
    (start_monitoring m sid now lOk).1.monitor_thread_running = true ∧
    (start_monitoring m sid now lOk).1.intensity_thread_running = true

/-- Counterexample to claim C7: with permissions denied,
`start_monitoring` returns false immediately (lines 149-151) and starts
nothing — no fallback mode, no loops.  On a fresh monitor with
`permissions_ok = false` the returned state has `fallback_mode = false`
and neither loop thread started, contradicting the claim. -/
theorem c7_counterexample : ¬ specClaimC7 := by
  intro hcl
  have h := hcl
    { permissions_ok := false, is_monitoring := false, is_paused := false
      fallback_mode := false, current_session_id := none
      last_activity_time := 0, idle_state := false, keypress_times := []
      mouse_positions := [], shutdown_event := false
      monitor_thread_running := false, intensity_thread_running := false
      idle_threshold := 3 } 1 1 true rfl
  simp [start_monitoring] at h

/-- Amended claim C7: when permission is denied, `start_monitoring`
returns false and changes nothing — no fallback mode and no loops.
Timer-only fallback mode (loops running with `fallback_mode` set) is
entered instead when permissions are OK but the input listeners fail to
start; in that case `start_monitoring` returns true and both loops run. -/
theorem c7_permission_denied (m : AMState) (sid : Nat) (now : ℚ) (lOk : Bool) :
    (m.permissions_ok = false → start_monitoring m sid now lOk = (m, false)) ∧
    (m.permissions_ok = true → m.is_monitoring = false →
      (start_monitoring m sid now false).2 = true ∧
      (start_monitoring m sid now false).1.fallback_mode = true ∧
      (start_monitoring m sid now false).1.monitor_thread_running = true ∧
      (start_monitoring m sid now false).1.intensity_thread_running = true ∧
      (start_monitoring m sid now false).1.is_monitoring = true) := by
  constructor
  · intro hp
    simp only [start_monitoring]
    rw [if_pos (by rw [hp]; simp)]
  · intro hp hm
    simp only [start_monitoring]
    rw [if_neg (by rw [hp]; simp), if_neg (by rw [hm]; simp)]
    refine ⟨rfl, by simp, rfl, rfl, rfl⟩

/-- Witness for the amended C7: a permission-denied monitor is returned
unchanged with result false, and a permitted monitor whose listeners fail
enters fallback mode with both loops running and result true. -/
theorem c7_witness :
    start_monitoring
      { permissions_ok := false, is_monitoring := false, is_paused := false
        fallback_mode := false, current_session_id := none
        last_activity_time := 0, idle_state := false, keypress_times := []
        mouse_positions := [], shutdown_event := false
        monitor_thread_running := false, intensity_thread_running := false
        idle_threshold := 3 } 1 1 true =
      ({ permissions_ok := false, is_monitoring := false, is_paused := false
         fallback_mode := false, current_session_id := none
         last_activity_time := 0, idle_state := false, keypress_times := []
         mouse_positions := [], shutdown_event := false
         monitor_thread_running := false, intensity_thread_running := false
         idle_threshold := 3 }, false) ∧
    (start_monitoring
      { permissions_ok := true, is_monitoring := false, is_paused := false
        fallback_mode := false, current_session_id := none
        last_activity_time := 0, idle_state := false, keypress_times := []
        mouse_positions := [], shutdown_event := false
        monitor_thread_running := false, intensity_thread_running := false
        idle_threshold := 3 } 1 1 false).2 = true ∧
    (start_monitoring
      { permissions_ok := true, is_monitoring := false, is_paused := false
        fallback_mode := false, current_session_id := none
        last_activity_time := 0, idle_state := false, keypress_times := []
        mouse_positions := [], shutdown_event := false
        monitor_thread_running := false, intensity_thread_running := false
        idle_threshold := 3 } 1 1 false).1.fallback_mode = true := by
  refine ⟨(c7_permission_denied _ 1 1 true).1 rfl, ?_, ?_⟩
  · exact ((c7_permission_denied _ 1 1 false).2 rfl rfl).1
  · exact ((c7_permission_denied _ 1 1 false).2 rfl rfl).2.1

/-! ## Claim C8 -/

theorem cki_formula (kt : List ℚ) (now : ℚ) (h2 : 2 ≤ kt.length)
    (hne : kt.filter (fun t => now - t ≤ 5) ≠ [])
    (hsp : 0 < (kt.filter (fun t => now - t ≤ 5)).getLastD 0 -
      (kt.filter (fun t => now - t ≤ 5)).headD 0) :
    calculate_keyboard_intensity kt now =
      max (min ((((kt.filter (fun t => now - t ≤ 5)).length : ℚ) /
        ((kt.filter (fun t => now - t ≤ 5)).getLastD 0 -
         (kt.filter (fun t => now - t ≤ 5)).headD 0)) / 10) 1) (1/10) := by
  simp only [calculate_keyboard_intensity]
  rw [if_neg (by omega), if_neg hne, if_neg (not_le.mpr hsp)]

/-- Claim C8: for every buffer of at most 10 keypress timestamps, the
keyboard intensity is the events-per-second rate over the keypresses of
the last 5 seconds, normalised by 10 keys/second and clamped into
[0.1, 1.0]; in particular the result always lies in [0.1, 1.0], a burst
of 10 keypresses within one second (all within the 5-second window)
yields 1.0, and once every keypress is older than 5 seconds the value is
the 0.1 floor. -/
theorem c8_keyboard_intensity (kt : List ℚ) (now : ℚ) (_hbuf : kt.length ≤ 10) :
    (1/10 ≤ calculate_keyboard_intensity kt now ∧
      calculate_keyboard_intensity kt now ≤ 1) ∧
    (2 ≤ kt.length →
      kt.filter (fun t => now - t ≤ 5) ≠ [] →
      0 < (kt.filter (fun t => now - t ≤ 5)).getLastD 0 -
          (kt.filter (fun t => now - t ≤ 5)).headD 0 →
      calculate_keyboard_intensity kt now =
        max (min ((((kt.filter (fun t => now - t ≤ 5)).length : ℚ) /
          ((kt.filter (fun t => now - t ≤ 5)).getLastD 0 -
           (kt.filter (fun t => now - t ≤ 5)).headD 0)) / 10) 1) (1/10)) ∧
    (kt.length = 10 →
      (∀ t' ∈ kt, now - t' ≤ 5) →
      0 < kt.getLastD 0 - kt.headD 0 →
      kt.getLastD 0 - kt.headD 0 ≤ 1 →
      calculate_keyboard_intensity kt now = 1) ∧
    ((∀ t' ∈ kt, 5 < now - t') →
      calculate_keyboard_intensity kt now = 1/10) := by
  refine ⟨?_, fun h2 hne hsp => cki_formula kt now h2 hne hsp, ?_, ?_⟩
  · simp only [calculate_keyboard_intensity]
    split_ifs <;>
      first
      | exact ⟨le_refl _, by norm_num⟩
      | exact ⟨le_max_right _ _, max_le (min_le_right _ _) (by norm_num)⟩
  · intro hlen hrec hpos hle1
    have hfil : kt.filter (fun t => now - t ≤ 5) = kt := by
      rw [List.filter_eq_self]
      intro a ha
      simpa using hrec a ha
    rw [cki_formula kt now (by omega)
      (by rw [hfil]; intro hc; rw [hc] at hlen; simp at hlen)
      (by rw [hfil]; exact hpos), hfil]
    have hcast : ((kt.length : ℚ)) = 10 := by rw [hlen]; norm_num
    rw [hcast]
    have h1span : 1 ≤ (10:ℚ) / (kt.getLastD 0 - kt.headD 0) / 10 := by
      rw [div_div, le_div_iff₀ (by positivity)]
      linarith
    rw [min_eq_right h1span, max_eq_left (by norm_num)]
  · intro hall
    have hfil : kt.filter (fun t => now - t ≤ 5) = [] := by
      rw [List.filter_eq_nil_iff]
      intro a ha
      simpa using not_le.mpr (hall a ha)
    simp only [calculate_keyboard_intensity]
    by_cases hl2 : kt.length < 2
    · rw [if_pos hl2]
    · rw [if_neg hl2, if_pos hfil]

/-- Witness for C8: a burst of 10 keypresses spread over 0.9 seconds,
read 1.1 to 2 seconds later, yields intensity exactly 1. -/
theorem c8_witness :
    calculate_keyboard_intensity
      [1, 11/10, 12/10, 13/10, 14/10, 15/10, 16/10, 17/10, 18/10, 19/10] 3 = 1 := by
  refine (c8_keyboard_intensity
    [1, 11/10, 12/10, 13/10, 14/10, 15/10, 16/10, 17/10, 18/10, 19/10] 3
    (by decide)).2.2.1 (by decide) ?_ ?_ ?_
  · intro t' ht'
    fin_cases ht' <;> norm_num
  · norm_num [List.getLastD, List.headD]
  · norm_num [List.getLastD, List.headD]

/-! ## Claim C10 -/

/-- Claim C10 (implicit): the key name recorded by `_sanitize_key` is
`"[REDACTED]"` exactly when the lowercased key contains one of the
sensitive substrings, and otherwise the key truncated to 20 characters;
consequently the recorded detail never exceeds 20 characters and never
contains a sensitive pattern (even case-insensitively). -/
theorem c10_sanitize_key (key : List Char) :
    (sanitize_key key).length ≤ 20 ∧
    (∀ p ∈ sensitive_patterns, ¬ p <:+: ((sanitize_key key).map py_lower)) ∧
    ((∃ p ∈ sensitive_patterns, p <:+: (key.map py_lower)) →
      sanitize_key key = "[REDACTED]".toList) ∧
    ((∀ p ∈ sensitive_patterns, ¬ p <:+: (key.map py_lower)) →
      sanitize_key key = key.take 20) := by
  by_cases hred : sensitive_patterns.any
      (fun p => decide (p <:+: key.map py_lower)) = true
  · have heq : sanitize_key key = "[REDACTED]".toList := by
      simp only [sanitize_key]; rw [if_pos hred]
    refine ⟨by rw [heq]; decide, by rw [heq]; decide, fun _ => heq, ?_⟩
    intro hno
    exfalso
    rw [List.any_eq_true] at hred
    obtain ⟨p, hp, hdp⟩ := hred
    exact hno p hp (of_decide_eq_true hdp)
  · have heq : sanitize_key key = key.take 20 := by
      simp only [sanitize_key]; rw [if_neg hred]
    have hnored : ∀ p ∈ sensitive_patterns, ¬ p <:+: (key.map py_lower) := by
      intro p hp hinf
      apply hred
      rw [List.any_eq_true]
      exact ⟨p, hp, decide_eq_true hinf⟩
    refine ⟨?_, ?_, ?_, fun _ => heq⟩
    · rw [heq]
      simp
    · intro p hp hinf
      rw [heq, List.map_take] at hinf
      exact hnored p hp
        (hinf.trans ((List.take_prefix 20 (key.map py_lower)).isInfix))
    · rintro ⟨p, hp, hinf⟩
      exact absurd hinf (hnored p hp)

/-- Witness for C10: a key whose lowercase form contains "password" is
redacted, and an innocuous key is recorded truncated (unchanged here). -/
theorem c10_witness :
    sanitize_key "Password123".toList = "[REDACTED]".toList ∧
    sanitize_key "hello".toList = "hello".toList.take 20 := by
  refine ⟨(c10_sanitize_key "Password123".toList).2.2.1 ?_,
          (c10_sanitize_key "hello".toList).2.2.2 ?_⟩
  · decide
  · decide

end StudyTracker
